import Mathlib

/-! xv6-net e1000 driver: shallow embedding of `e1000.c`.

The driver talks to the network card through volatile 32-bit loads and stores
in a memory-mapped window.  The embedding keeps

* the driver's own memory (`struct e1000`, the `gdev` pointer, the page
  allocator's free list) as an explicit state `Kernel`;
* every volatile access, every descriptor store and the interrupt-controller
  call as an `Event` appended to `Kernel.trace`, in program order;
* the values the card returns on volatile loads as the list `Kernel.reads`,
  consumed front to back; once the list is used up every further load returns
  zero.

Machine integers are natural numbers reduced with `% 2^w` at the places where
the C code converts to `uint8_t`, `uint16_t`, `uint32_t`.

`e1000_dev.h`, `pci.h`, `memlayout.h` and `defs.h` are not among the sources:
their constants are the fields of `Consts`, and theorems quantify over them.
-/

namespace E1000

/-! ## Integer conversions -/

/-- Conversion to `uint8_t`. -/
def u8 (x : Nat) : Nat := x % 256

/-- Conversion to `uint16_t`. -/
def u16 (x : Nat) : Nat := x % 65536

/-- Conversion to `uint32_t`. -/
def u32 (x : Nat) : Nat := x % 4294967296

/-! ## Constants of the absent headers -/

/-- Constants that `e1000.c` takes from headers outside the sources
(`e1000_dev.h`: register offsets, bit flags and shifts, descriptor layout;
`memlayout.h`: `KERNBASE`).  They are parameters of the development; where a
theorem needs a property of them (distinct offsets, values that fit 32 bits)
it says so in a hypothesis. -/
structure Consts where
  E1000_CTL : Nat
  E1000_CTL_SLU : Nat
  E1000_EERD : Nat
  E1000_EERD_READ : Nat
  E1000_EERD_ADDR : Nat
  E1000_EERD_DONE : Nat
  E1000_EERD_DATA : Nat
  E1000_ICR : Nat
  E1000_ICR_RXT0 : Nat
  E1000_IMS : Nat
  E1000_IMS_RXT0 : Nat
  E1000_MTA : Nat
  E1000_RCTL : Nat
  E1000_RCTL_EN : Nat
  E1000_RCTL_SBP : Nat
  E1000_RCTL_UPE : Nat
  E1000_RCTL_MPE : Nat
  E1000_RCTL_RDMTS_HALF : Nat
  E1000_RCTL_SECRC : Nat
  E1000_RCTL_LPE : Nat
  E1000_RCTL_BAM : Nat
  E1000_RCTL_SZ_2048 : Nat
  E1000_RDBAL : Nat
  E1000_RDBAH : Nat
  E1000_RDLEN : Nat
  E1000_RDH : Nat
  E1000_RDT : Nat
  E1000_TCTL : Nat
  E1000_TCTL_EN : Nat
  E1000_TCTL_PSP : Nat
  E1000_TDBAL : Nat
  E1000_TDBAH : Nat
  E1000_TDLEN : Nat
  E1000_TDH : Nat
  E1000_TDT : Nat
  /-- The kernel base of `memlayout.h`, subtracted by `V2P`. -/
  KERNBASE : Nat
  /-- The value of `sizeof(struct rx_desc)`. -/
  sizeof_rx_desc : Nat
  /-- The value of `sizeof(struct tx_desc)`. -/
  sizeof_tx_desc : Nat
  /-- The value of `offsetof(struct e1000, rx_ring)`. -/
  offsetof_rx_ring : Nat
  /-- The value of `offsetof(struct e1000, tx_ring)`. -/
  offsetof_tx_ring : Nat

/-- The values of the Intel 8254x manual and of stock xv6, used to instantiate
the parameters on concrete runs. -/
def datasheet : Consts where
  E1000_CTL := 0x0000
  E1000_CTL_SLU := 0x40
  E1000_EERD := 0x0014
  E1000_EERD_READ := 0x1
  E1000_EERD_ADDR := 8
  E1000_EERD_DONE := 0x10
  E1000_EERD_DATA := 16
  E1000_ICR := 0x00c0
  E1000_ICR_RXT0 := 0x80
  E1000_IMS := 0x00d0
  E1000_IMS_RXT0 := 0x80
  E1000_MTA := 0x5200
  E1000_RCTL := 0x0100
  E1000_RCTL_EN := 0x2
  E1000_RCTL_SBP := 0x4
  E1000_RCTL_UPE := 0x8
  E1000_RCTL_MPE := 0x10
  E1000_RCTL_RDMTS_HALF := 0
  E1000_RCTL_SECRC := 0x4000000
  E1000_RCTL_LPE := 0x20
  E1000_RCTL_BAM := 0x8000
  E1000_RCTL_SZ_2048 := 0
  E1000_RDBAL := 0x2800
  E1000_RDBAH := 0x2804
  E1000_RDLEN := 0x2808
  E1000_RDH := 0x2810
  E1000_RDT := 0x2818
  E1000_TCTL := 0x0400
  E1000_TCTL_EN := 0x2
  E1000_TCTL_PSP := 0x8
  E1000_TDBAL := 0x3800
  E1000_TDBAH := 0x3804
  E1000_TDLEN := 0x3808
  E1000_TDH := 0x3810
  E1000_TDT := 0x3818
  KERNBASE := 0x80000000
  sizeof_rx_desc := 16
  sizeof_tx_desc := 16
  offsetof_rx_ring := 4
  offsetof_tx_ring := 260

/-! ## Data model -/

/-- The value of `RX_DESC_NUM`. -/
def RX_DESC_NUM : Nat := 16

/-- The value of `TX_DESC_NUM`. -/
def TX_DESC_NUM : Nat := 16

/-- Receive descriptor: the two fields of `struct rx_desc` the driver stores. -/
structure rx_desc where
  addr : Nat
  status : Nat
deriving DecidableEq

/-- Transmit descriptor: the two fields of `struct tx_desc` the driver stores. -/
structure tx_desc where
  addr : Nat
  cmd : Nat
deriving DecidableEq

/-- The driver object `struct e1000`. -/
@[ext]
structure e1000 where
  mmio_base : Nat
  rx_ring : Fin RX_DESC_NUM → rx_desc
  tx_ring : Fin TX_DESC_NUM → tx_desc
  addr : Fin 6 → Nat
  irq : Nat

/-- Modelled from the spec: `struct pci_func` of the absent `pci.h`, reduced to
what the PCI layer hands over, six (base address, size) region pairs and one
IRQ line number. -/
structure pci_func where
  reg_base : Fin 6 → Nat
  reg_size : Fin 6 → Nat
  irq_line : Nat

/-- Observable actions of the driver, in program order.  A register access
is recorded with the window base it used (`dev->mmio_base`) and the 16-bit
offset; it touches the 32-bit word at `mmio_base + reg`. -/
inductive Event where
  | reg_read (mmio_base reg val : Nat)
  | reg_write (mmio_base reg val : Nat)
  | rx_addr (n val : Nat)
  | rx_status (n val : Nat)
  | tx_addr (n val : Nat)
  | tx_cmd (n val : Nat)
  | ioapicenable (irq : Nat) (cpu : Int)
deriving DecidableEq

/-- Machine state seen by the driver. -/
@[ext]
structure Kernel where
  /-- Free pages of the allocator (kernel virtual addresses). -/
  kmem : List Nat
  /-- The pointer `static struct e1000 *gdev`; zero is the null pointer. -/
  gdev : Nat
  /-- The `struct e1000` object in the page the driver allocates for it. -/
  dev : e1000
  /-- The global `ncpu`. -/
  ncpu : Int
  /-- Values the card returns on the coming volatile loads. -/
  reads : List Nat
  /-- Actions performed so far. -/
  trace : List Event

/-- Outcome of running driver code from a state. -/
inductive Result (α : Type) where
  /-- The code returned. -/
  | ok (a : α) (k : Kernel)
  /-- An `assert` failed and `panic` was called; `panic` does not return. -/
  | panic (k : Kernel)
  /-- A store through the null pointer. -/
  | fault (k : Kernel)
  /-- A polling loop that never ends: the card never reports completion. -/
  | hang (k : Kernel)

/-- Driver code: a state transformer with an outcome. -/
abbrev M (α : Type) : Type := Kernel → Result α

/-- Sequencing: the second part runs only if the first part returned. -/
def M.bind {α β : Type} (m : M α) (f : α → M β) : M β := fun k =>
  match m k with
  | Result.ok a k1 => f a k1
  | Result.panic k1 => Result.panic k1
  | Result.fault k1 => Result.fault k1
  | Result.hang k1 => Result.hang k1

instance : Monad M where
  pure a := fun k => Result.ok a k
  bind := M.bind

/-- The C loop `for (int n = lo; n < lo + count; n++) body(n)` without `break`. -/
def for_loop (body : Nat → M Unit) : Nat → Nat → M Unit
  | _, 0 => pure ()
  | lo, count + 1 => do
      body lo
      for_loop body (lo + 1) count

/-! ## External collaborators -/

/-- Modelled from the spec: `kalloc` of the absent `kalloc.c`, the physical
page allocator that supplies one page per request.  The free pages are a list
of kernel virtual addresses; a request takes the first one, and the null
pointer is returned when none is left. -/
def kalloc : M Nat := fun k =>
  Result.ok (k.kmem.headD 0) { k with kmem := k.kmem.tail }

/-- Modelled from the spec: the macro `V2P` of the absent `memlayout.h`, the
conversion of a kernel virtual address to the physical address at the
allocator boundary, `((uint)(a)) - KERNBASE` in 32-bit arithmetic. -/
def V2P (c : Consts) (a : Nat) : Nat :=
  u32 (u32 a + (4294967296 - u32 c.KERNBASE))

/-- The macro `assert(x)`: `panic` when the condition is false. -/
def assert (x : Bool) : M Unit := fun k =>
  if x then Result.ok () k else Result.panic k

/-! ## `e1000.c` -/

/-- The function `e1000_reg_read`: volatile load at `dev->mmio_base + reg`.
The card supplies the value: the next of its coming answers, and zero once
they are used up. -/
def e1000_reg_read (reg : Nat) : M Nat := fun k =>
  Result.ok (u32 (k.reads.headD 0))
    { k with reads := k.reads.tail,
             trace := k.trace ++ [Event.reg_read k.dev.mmio_base (u16 reg) (u32 (k.reads.headD 0))] }

/-- The function `e1000_reg_write`: volatile store at `dev->mmio_base + reg`. -/
def e1000_reg_write (reg val : Nat) : M Unit := fun k =>
  Result.ok ()
    { k with trace := k.trace ++ [Event.reg_write k.dev.mmio_base (u16 reg) (u32 val)] }

/-- The polling loop of `e1000_eeprom_read`:
`while (!((eerd = e1000_reg_read(dev, E1000_EERD)) & E1000_EERD_DONE)) microdelay(1);`
run with the card's coming answers as its argument.  When the answers are
used up every further load returns zero, the done bit is never seen and the
loop never ends.  The delay between two polls has no effect on the state. -/
def eeprom_poll (c : Consts) : List Nat → M Nat
  | [] => fun k => Result.hang k
  | _ :: pending => do
      let eerd ← e1000_reg_read c.E1000_EERD
      if eerd &&& c.E1000_EERD_DONE ≠ 0 then pure eerd else eeprom_poll c pending

/-- The function `e1000_eeprom_read`. -/
def e1000_eeprom_read (c : Consts) (addr : Nat) : M Nat := do
  e1000_reg_write c.E1000_EERD (c.E1000_EERD_READ ||| (u8 addr <<< c.E1000_EERD_ADDR))
  let eerd ← fun k => eeprom_poll c k.reads k
  pure (u16 (eerd >>> c.E1000_EERD_DATA))

/-- Store to `dst[i]` where `dst` is `dev->addr`, the buffer the only caller
passes. -/
def store_addr (i val : Nat) : M Unit := fun k =>
  Result.ok () { k with dev := { k.dev with addr := fun j => if j.val = i then u8 val else k.dev.addr j } }

/-- Body of the loop of `e1000_read_addr_from_eeprom` for index `n`. -/
def read_addr_step (c : Consts) (n : Nat) : M Unit := do
  let data ← e1000_eeprom_read c n
  store_addr (n * 2 + 0) (data &&& 0xff)
  store_addr (n * 2 + 1) ((data >>> 8) &&& 0xff)

/-- The function `e1000_read_addr_from_eeprom`, with `dst = dev->addr`. -/
def e1000_read_addr_from_eeprom (c : Consts) : M Unit :=
  for_loop (read_addr_step c) 0 3

/-- The loop of `e1000_resolve_mmio_base` over the region indices still to be
visited: `none` is the failed assertion, `some b` the value of `mmio_base`
at `return`. -/
def resolve_loop (pcif : pci_func) : List (Fin 6) → Option Nat
  | [] => some 0
  | n :: rest =>
      if pcif.reg_base n > 0xffff then
        if pcif.reg_size n = 1 <<< 17 then some (pcif.reg_base n) else none
      else resolve_loop pcif rest

/-- The function `e1000_resolve_mmio_base`: `none` when the assertion fails. -/
def e1000_resolve_mmio_base (pcif : pci_func) : Option Nat :=
  resolve_loop pcif [0, 1, 2, 3, 4, 5]

/-- Reference selection, written from the specification: the base of the
first region (lowest index) whose size is exactly 131072 bytes and whose base
exceeds 0xffff, and zero when there is no such region. -/
def mmio_base_reference (pcif : pci_func) : Nat :=
  match (List.finRange 6).find? (fun i => pcif.reg_size i = 131072 ∧ pcif.reg_base i > 0xffff) with
  | some i => pcif.reg_base i
  | none => 0

/-- Store to `dev->rx_ring[n].addr`. -/
def store_rx_addr (n val : Nat) : M Unit := fun k =>
  Result.ok ()
    { k with dev := { k.dev with rx_ring := fun i =>
                        if i.val = n then { k.dev.rx_ring i with addr := val } else k.dev.rx_ring i },
             trace := k.trace ++ [Event.rx_addr n val] }

/-- Store to `dev->rx_ring[n].status`. -/
def store_rx_status (n val : Nat) : M Unit := fun k =>
  Result.ok ()
    { k with dev := { k.dev with rx_ring := fun i =>
                        if i.val = n then { k.dev.rx_ring i with status := val } else k.dev.rx_ring i },
             trace := k.trace ++ [Event.rx_status n val] }

/-- Store to `dev->tx_ring[n].addr`. -/
def store_tx_addr (n val : Nat) : M Unit := fun k =>
  Result.ok ()
    { k with dev := { k.dev with tx_ring := fun i =>
                        if i.val = n then { k.dev.tx_ring i with addr := val } else k.dev.tx_ring i },
             trace := k.trace ++ [Event.tx_addr n val] }

/-- Store to `dev->tx_ring[n].cmd`. -/
def store_tx_cmd (n val : Nat) : M Unit := fun k =>
  Result.ok ()
    { k with dev := { k.dev with tx_ring := fun i =>
                        if i.val = n then { k.dev.tx_ring i with cmd := val } else k.dev.tx_ring i },
             trace := k.trace ++ [Event.tx_cmd n val] }

/-- The flag union `e1000_rx_init` passes for the receive control register. -/
def rctl_flags (c : Consts) : Nat :=
  c.E1000_RCTL_SBP |||
  c.E1000_RCTL_UPE |||
  c.E1000_RCTL_MPE |||
  c.E1000_RCTL_RDMTS_HALF |||
  c.E1000_RCTL_SECRC |||
  c.E1000_RCTL_LPE |||
  c.E1000_RCTL_BAM |||
  c.E1000_RCTL_SZ_2048 |||
  0

/-- Body of the first loop of `e1000_rx_init` for index `n`. -/
def rx_init_step (c : Consts) (n : Nat) : M Unit := do
  let page ← kalloc
  store_rx_addr n (V2P c page)
  store_rx_status n 0

/-- The function `e1000_rx_init`; `dev` is the pointer it is given.  The two
loads that feed the diagnostic line are kept, in the order they are written
(C leaves the order of evaluation of the two arguments open); the console
output is not kept. -/
def e1000_rx_init (c : Consts) (dev : Nat) : M Unit := do
  for_loop (rx_init_step c) 0 RX_DESC_NUM
  let base := V2P c (dev + c.offsetof_rx_ring)
  e1000_reg_write c.E1000_RDBAL (u32 (base &&& 0xffffffff))
  e1000_reg_write c.E1000_RDBAH (u32 (base >>> 32))
  let _ ← e1000_reg_read c.E1000_RDBAH
  let _ ← e1000_reg_read c.E1000_RDBAL
  e1000_reg_write c.E1000_RDLEN (u32 (RX_DESC_NUM * 16))
  e1000_reg_write c.E1000_RDH 0
  e1000_reg_write c.E1000_RDT RX_DESC_NUM
  e1000_reg_write c.E1000_RCTL (rctl_flags c)

/-- The flag union `e1000_tx_init` passes for the transmit control register. -/
def tctl_flags (c : Consts) : Nat :=
  c.E1000_TCTL_EN |||
  c.E1000_TCTL_PSP |||
  0

/-- Body of the first loop of `e1000_tx_init` for index `n`. -/
def tx_init_step (n : Nat) : M Unit := do
  store_tx_addr n 0
  store_tx_cmd n 0

/-- The function `e1000_tx_init`; `dev` is the pointer it is given.  The two
loads that feed the diagnostic line are kept as in `e1000_rx_init`. -/
def e1000_tx_init (c : Consts) (dev : Nat) : M Unit := do
  for_loop tx_init_step 0 TX_DESC_NUM
  let base := V2P c (dev + c.offsetof_tx_ring)
  e1000_reg_write c.E1000_TDBAL (u32 (base &&& 0xffffffff))
  e1000_reg_write c.E1000_TDBAH (u32 (base >>> 32))
  let _ ← e1000_reg_read c.E1000_TDBAH
  let _ ← e1000_reg_read c.E1000_TDBAL
  e1000_reg_write c.E1000_TDLEN (u32 (TX_DESC_NUM * c.sizeof_tx_desc))
  e1000_reg_write c.E1000_TDH 0
  e1000_reg_write c.E1000_TDT TX_DESC_NUM
  e1000_reg_write c.E1000_TCTL (tctl_flags c)

/-- The function `e1000_intr`. -/
def e1000_intr (c : Consts) : M Unit := fun k =>
  if k.gdev ≠ 0 then e1000_reg_write c.E1000_ICR c.E1000_ICR_RXT0 k
  else Result.ok () k

/-- The assignment `gdev = ...`. -/
def set_gdev (p : Nat) : M Unit := fun k => Result.ok () { k with gdev := p }

/-- Store to `dev->mmio_base`; a null `dev` faults. -/
def store_mmio_base (dev val : Nat) : M Unit := fun k =>
  if dev = 0 then Result.fault k
  else Result.ok () { k with dev := { k.dev with mmio_base := u32 val } }

/-- Store to `dev->irq`. -/
def store_irq (val : Nat) : M Unit := fun k =>
  Result.ok () { k with dev := { k.dev with irq := u8 val } }

/-- The call `ioapicenable(dev->irq, ncpu - 1)` to the interrupt controller. -/
def ioapicenable : M Unit := fun k =>
  Result.ok () { k with trace := k.trace ++ [Event.ioapicenable k.dev.irq (k.ncpu - 1)] }

/-- The function `e1000_init`.  The assertion inside
`e1000_resolve_mmio_base` fires before the store to `dev->mmio_base`; the
diagnostic lines print driver memory only and are left out. -/
def e1000_init (c : Consts) (pcif : pci_func) : M Int := do
  let dev ← kalloc
  set_gdev dev
  match e1000_resolve_mmio_base pcif with
  | none => fun k => Result.panic k
  | some mmio_base =>
      store_mmio_base dev mmio_base
      (fun k => assert (k.dev.mmio_base ≠ 0) k)
      e1000_read_addr_from_eeprom c
      store_irq pcif.irq_line
      ioapicenable
      let ctl ← e1000_reg_read c.E1000_CTL
      e1000_reg_write c.E1000_CTL (ctl ||| c.E1000_CTL_SLU)
      for_loop (fun n => e1000_reg_write (c.E1000_MTA + (n <<< 2)) 0) 0 128
      e1000_reg_write c.E1000_IMS c.E1000_IMS_RXT0
      let _ ← e1000_reg_read c.E1000_ICR
      e1000_rx_init c dev
      e1000_tx_init c dev
      let rctl ← e1000_reg_read c.E1000_RCTL
      e1000_reg_write c.E1000_RCTL (rctl ||| c.E1000_RCTL_EN)
      pure 0

/-! ## Reading the trace -/

/-- The values stored to register offset `reg`, oldest first. -/
def reg_writes_to (reg : Nat) (t : List Event) : List Nat :=
  t.filterMap (fun e =>
    match e with
    | Event.reg_write _ r v => if r = reg then some v else none
    | _ => none)

/-- The value register offset `reg` holds by the driver's doing: the last
value stored to it, if any. -/
def last_write (reg : Nat) (t : List Event) : Option Nat :=
  (reg_writes_to reg t).getLast?

/-- Offsets of the registers of the receive ring. -/
def rx_regs (c : Consts) : List Nat :=
  [u16 c.E1000_RDBAL, u16 c.E1000_RDBAH, u16 c.E1000_RDLEN, u16 c.E1000_RDH, u16 c.E1000_RDT,
   u16 c.E1000_RCTL]

/-- Offsets of the registers of the transmit ring. -/
def tx_regs (c : Consts) : List Nat :=
  [u16 c.E1000_TDBAL, u16 c.E1000_TDBAH, u16 c.E1000_TDLEN, u16 c.E1000_TDH, u16 c.E1000_TDT,
   u16 c.E1000_TCTL]

/-- Whether an action changes the receive ring: a store to one of its
descriptors or to one of its registers. -/
def touches_rx (c : Consts) : Event → Bool
  | Event.rx_addr _ _ => true
  | Event.rx_status _ _ => true
  | Event.reg_write _ r _ => decide (r ∈ rx_regs c)
  | _ => false

/-- Whether an action changes a ring: a store to a descriptor or to a ring
register. -/
def touches_ring (c : Consts) : Event → Bool
  | Event.rx_addr _ _ => true
  | Event.rx_status _ _ => true
  | Event.tx_addr _ _ => true
  | Event.tx_cmd _ _ => true
  | Event.reg_write _ r _ => decide (r ∈ rx_regs c ∨ r ∈ tx_regs c)
  | _ => false

/-! ## Concrete inputs -/

/-- A PCI function whose region 0 has a base above 0xffff but is 4096 bytes
long, and whose region 1 is the only one of 131072 bytes with a base above
0xffff. -/
def pcif_two_high : pci_func where
  reg_base := ![0x10000, 0xfebc0000, 0, 0, 0, 0]
  reg_size := ![4096, 131072, 0, 0, 0, 0]
  irq_line := 11

/-- A PCI function all of whose regions are smaller than 64 KB. -/
def pcif_small : pci_func where
  reg_base := ![0xfebc0000, 0xc000, 0, 0, 0, 0]
  reg_size := ![0x8000, 64, 0, 0, 0, 0]
  irq_line := 11

/-- A PCI function as the emulated card presents it: a 128 KB register window
at 0xfebc0000 and a small I/O region. -/
def pcif_ok : pci_func where
  reg_base := ![0xfebc0000, 0xc000, 0, 0, 0, 0]
  reg_size := ![0x20000, 64, 0, 0, 0, 0]
  irq_line := 11

/-- Arbitrary contents of the page that will hold the driver object. -/
def dev_junk : e1000 where
  mmio_base := 0x05050505
  rx_ring := fun _ => ⟨0x0505050505050505, 5⟩
  tx_ring := fun _ => ⟨0x0505050505050505, 5⟩
  addr := fun _ => 5
  irq := 5

/-- Sixteen free pages. -/
def pages16 : List Nat :=
  [0x80401000, 0x80402000, 0x80403000, 0x80404000, 0x80405000, 0x80406000, 0x80407000,
   0x80408000, 0x80409000, 0x8040a000, 0x8040b000, 0x8040c000, 0x8040d000, 0x8040e000,
   0x8040f000, 0x80410000]

/-- A state at boot: 19 free pages, no driver object yet, two CPUs, and a card
that answers the EEPROM reads with the words 0x1234, 0x5678, 0x9abc (the first
and the second after one poll without the done bit), then 0x55 for the
control register, 0x80 for the interrupt cause, four ring base loads, and the
stored flag union for the receive control register. -/
def k_boot : Kernel where
  kmem := 0x80400000 :: (pages16 ++ [0x80411000, 0x80412000])
  gdev := 0
  dev := dev_junk
  ncpu := 2
  reads := [0, 0x12340010, 0x56780000, 0x56780010, 0x9abc0010, 0x55, 0x80, 1, 2, 3, 4, 0x0400803c]
  trace := []

/-- A state after initialisation of the driver object: `gdev` points to it,
its window base is set, and the card has nothing more to answer. -/
def k_up : Kernel where
  kmem := [0x80411000, 0x80412000]
  gdev := 0x80400000
  dev := { dev_junk with mmio_base := 0xfebc0000 }
  ncpu := 2
  reads := []
  trace := []

/-- A state in which the allocator is about to hand out the sixteen pages. -/
def k_rx : Kernel where
  kmem := pages16 ++ [0x80411000, 0x80412000]
  gdev := 0x80400000
  dev := { dev_junk with mmio_base := 0xfebc0000 }
  ncpu := 2
  reads := [1, 2, 3, 4]
  trace := []

/-- The boot state with a card that answers only the three EEPROM reads, each
at once with the done bit (words 0x1234, 0x5678, 0x9abc); every later load,
that of the receive control register included, returns zero. -/
def k_silent : Kernel where
  kmem := 0x80400000 :: (pages16 ++ [0x80411000, 0x80412000])
  gdev := 0
  dev := dev_junk
  ncpu := 2
  reads := [0x12340010, 0x56780010, 0x9abc0010]
  trace := []

/-! # Theorems -/

/-! ## Region resolution -/

theorem resolve_loop_find (pcif : pci_func) (l : List (Fin 6)) :
    resolve_loop pcif l =
      match l.find? (fun n => decide (pcif.reg_base n > 0xffff)) with
      | none => some 0
      | some n => if pcif.reg_size n = 131072 then some (pcif.reg_base n) else none := by
  induction l with
  | nil => rfl
  | cons n rest ih =>
    by_cases h : pcif.reg_base n > 0xffff
    · simp [resolve_loop, h, List.find?]
    · simp [resolve_loop, h, List.find?, ih]

/-- In the index list of the loop, `find?` returns the lowest index that
satisfies the test. -/
theorem find_regions_some (p : Fin 6 → Bool) (n : Fin 6) :
    ([0, 1, 2, 3, 4, 5] : List (Fin 6)).find? p = some n ↔
      p n = true ∧ ∀ j : Fin 6, j < n → p j = false := by
  have hmem : ∀ i : Fin 6, i ∈ ([0, 1, 2, 3, 4, 5] : List (Fin 6)) := by decide
  have hsorted : ([0, 1, 2, 3, 4, 5] : List (Fin 6)).Pairwise (fun a b => a < b) := by decide
  have key : ∀ m : Fin 6, ([0, 1, 2, 3, 4, 5] : List (Fin 6)).find? p = some m →
      p m = true ∧ ∀ j : Fin 6, j < m → p j = false := by
    intro m hm
    obtain ⟨hpm, as, bs, hl, has⟩ := List.find?_eq_some.mp hm
    refine ⟨hpm, fun j hj => ?_⟩
    have hjl := hmem j
    rw [hl] at hjl hsorted
    rcases List.mem_append.mp hjl with hja | hjb
    · simpa using has j hja
    · rcases List.mem_cons.mp hjb with rfl | hjbs
      · exact absurd hj (lt_irrefl _)
      · have h2 := (List.pairwise_append.mp hsorted).2.1
        have h3 := (List.pairwise_cons.mp h2).1 j hjbs
        exact absurd (lt_trans hj h3) (lt_irrefl _)
  constructor
  · exact key n
  · rintro ⟨hpn, hfirst⟩
    cases hf : ([0, 1, 2, 3, 4, 5] : List (Fin 6)).find? p with
    | none =>
      have := List.find?_eq_none.mp hf n (hmem n)
      exact absurd hpn this
    | some m =>
      obtain ⟨hpm, hm⟩ := key m hf
      rcases lt_trichotomy m n with h | h | h
      · rw [hfirst m h] at hpm; exact absurd hpm (by simp)
      · rw [h]
      · rw [hm n h] at hpn; exact absurd hpn (by simp)

theorem find_regions_none (p : Fin 6 → Bool) :
    ([0, 1, 2, 3, 4, 5] : List (Fin 6)).find? p = none ↔ ∀ j : Fin 6, p j = false := by
  have hmem : ∀ i : Fin 6, i ∈ ([0, 1, 2, 3, 4, 5] : List (Fin 6)) := by decide
  rw [List.find?_eq_none]
  constructor
  · intro h j
    simpa using h j (hmem j)
  · intro h j _
    simp [h j]

theorem finRange_six : List.finRange 6 = ([0, 1, 2, 3, 4, 5] : List (Fin 6)) := by decide

/-- C1, counterexample: with region 1 the only region of size 131072 and base
above 0xffff, the reference selection is its base 0xfebc0000, while
`e1000_resolve_mmio_base` stops at region 0 (base 0x10000, size 4096) and
fails its assertion: it does not return the reference selection. -/
theorem C1_counterexample :
    (∀ i : Fin 6, (pcif_two_high.reg_size i = 131072 ∧ pcif_two_high.reg_base i > 0xffff) ↔ i = 1) ∧
    mmio_base_reference pcif_two_high = 0xfebc0000 ∧
    e1000_resolve_mmio_base pcif_two_high = none ∧
    e1000_resolve_mmio_base pcif_two_high ≠ some (mmio_base_reference pcif_two_high) := by
  decide

/-- C1, amended: `e1000_resolve_mmio_base` returns the reference selection
exactly when the first region (lowest index) whose base exceeds 0xffff, if
there is one, has size exactly 131072; when that region has another size the
assertion fails and no value is returned. -/
theorem C1_resolve_vs_reference (pcif : pci_func) :
    e1000_resolve_mmio_base pcif =
      if (∀ i : Fin 6, 0xffff < pcif.reg_base i →
            (∀ j : Fin 6, j < i → pcif.reg_base j ≤ 0xffff) → pcif.reg_size i = 131072)
      then some (mmio_base_reference pcif) else none := by
  unfold e1000_resolve_mmio_base mmio_base_reference
  rw [resolve_loop_find, finRange_six]
  cases hf : ([0, 1, 2, 3, 4, 5] : List (Fin 6)).find?
      (fun n => decide (pcif.reg_base n > 0xffff)) with
  | none =>
    have hlow := (find_regions_none _).mp hf
    have hlow2 : ∀ j : Fin 6, pcif.reg_base j ≤ 0xffff := by
      intro j; simpa using hlow j
    have hcond : ∀ i : Fin 6, 0xffff < pcif.reg_base i →
        (∀ j : Fin 6, j < i → pcif.reg_base j ≤ 0xffff) → pcif.reg_size i = 131072 := by
      intro i hi; exact absurd hi (not_lt.mpr (hlow2 i))
    have href : ([0, 1, 2, 3, 4, 5] : List (Fin 6)).find?
        (fun i => decide (pcif.reg_size i = 131072 ∧ pcif.reg_base i > 0xffff)) = none := by
      rw [find_regions_none]
      intro j
      have := hlow2 j
      simp only [decide_eq_false_iff_not, not_and, not_lt]
      intro _; exact this
    rw [if_pos hcond, href]
  | some n =>
    obtain ⟨hn, hfirst⟩ := (find_regions_some _ n).mp hf
    have hn2 : 0xffff < pcif.reg_base n := by simpa using hn
    have hfirst2 : ∀ j : Fin 6, j < n → pcif.reg_base j ≤ 0xffff := by
      intro j hj; simpa using hfirst j hj
    by_cases hs : pcif.reg_size n = 131072
    · have hcond : ∀ i : Fin 6, 0xffff < pcif.reg_base i →
          (∀ j : Fin 6, j < i → pcif.reg_base j ≤ 0xffff) → pcif.reg_size i = 131072 := by
        intro i hi hif
        rcases lt_trichotomy i n with h | h | h
        · exact absurd hi (not_lt.mpr (hfirst2 i h))
        · rw [h]; exact hs
        · exact absurd hn2 (not_lt.mpr (hif n h))
      have href : ([0, 1, 2, 3, 4, 5] : List (Fin 6)).find?
          (fun i => decide (pcif.reg_size i = 131072 ∧ pcif.reg_base i > 0xffff)) = some n := by
        rw [find_regions_some]
        refine ⟨by simp [hs, hn2], fun j hj => ?_⟩
        have := hfirst2 j hj
        simp only [decide_eq_false_iff_not, not_and, not_lt]
        intro _; exact this
      rw [if_pos hcond, href]
      simp [hs]
    · have hcond : ¬ (∀ i : Fin 6, 0xffff < pcif.reg_base i →
          (∀ j : Fin 6, j < i → pcif.reg_base j ≤ 0xffff) → pcif.reg_size i = 131072) := by
        intro h; exact hs (h n hn2 hfirst2)
      rw [if_neg hcond]
      simp [hs]

theorem resolve_no_match (pcif : pci_func)
    (hno : ∀ i : Fin 6, ¬ (pcif.reg_size i = 131072 ∧ pcif.reg_base i > 0xffff)) :
    e1000_resolve_mmio_base pcif = none ∨ e1000_resolve_mmio_base pcif = some 0 := by
  unfold e1000_resolve_mmio_base
  rw [resolve_loop_find]
  cases hf : ([0, 1, 2, 3, 4, 5] : List (Fin 6)).find?
      (fun n => decide (pcif.reg_base n > 0xffff)) with
  | none => right; rfl
  | some n =>
    left
    obtain ⟨hn, _⟩ := (find_regions_some _ n).mp hf
    have hn2 : 0xffff < pcif.reg_base n := by simpa using hn
    have hs : pcif.reg_size n ≠ 131072 := fun h => hno n ⟨h, hn2⟩
    simp [hs]

/-- C2: when no region has size 131072 with a base above 0xffff, `e1000_init`,
given a page for the driver object, stops at a failed assertion, either the
one inside region resolution or the one on the resolved base right after it;
up to there it performs no register load or store and no descriptor store:
the trace, the card's coming answers and both descriptor rings are as they
were. -/
theorem C2_init_aborts (c : Consts) (pcif : pci_func) (k : Kernel) (p : Nat) (ps : List Nat)
    (hk : k.kmem = p :: ps) (hp : p ≠ 0)
    (hno : ∀ i : Fin 6, ¬ (pcif.reg_size i = 131072 ∧ pcif.reg_base i > 0xffff)) :
    (e1000_resolve_mmio_base pcif = none ∨ e1000_resolve_mmio_base pcif = some 0) ∧
    ∃ k1, e1000_init c pcif k = Result.panic k1 ∧
      k1.trace = k.trace ∧ k1.reads = k.reads ∧
      k1.dev.rx_ring = k.dev.rx_ring ∧ k1.dev.tx_ring = k.dev.tx_ring := by
  refine ⟨resolve_no_match pcif hno, ?_⟩
  rcases resolve_no_match pcif hno with h | h
  · refine ⟨{ k with kmem := ps, gdev := p }, ?_, rfl, rfl, rfl, rfl⟩
    simp [e1000_init, h, bind, M.bind, kalloc, hk, set_gdev]
  · refine ⟨{ k with kmem := ps, gdev := p, dev := { k.dev with mmio_base := 0 } }, ?_, rfl, rfl, rfl, rfl⟩
    simp [e1000_init, h, bind, M.bind, kalloc, hk, set_gdev, store_mmio_base, hp, assert, u32]

/-! ## EEPROM access -/

/-- The events of a run of loads of the EEPROM-control register. -/
theorem eeprom_poll_done (c : Consts) (pre : List Nat) :
    ∀ (v : Nat) (rest : List Nat) (k : Kernel), k.reads = pre ++ v :: rest →
      (∀ x ∈ pre, u32 x &&& c.E1000_EERD_DONE = 0) → u32 v &&& c.E1000_EERD_DONE ≠ 0 →
      eeprom_poll c k.reads k = Result.ok (u32 v)
        { k with reads := rest,
                 trace := k.trace ++ (pre ++ [v]).map
                   (fun x => Event.reg_read k.dev.mmio_base (u16 c.E1000_EERD) (u32 x)) } := by
  induction pre with
  | nil =>
    intro v rest k hk _ hv
    rw [hk]
    simp [eeprom_poll, bind, M.bind, e1000_reg_read, hk, hv, pure]
  | cons x pre ih =>
    intro v rest k hk hpre hv
    have hx : u32 x &&& c.E1000_EERD_DONE = 0 := hpre x (List.mem_cons_self _ _)
    have hpre2 : ∀ y ∈ pre, u32 y &&& c.E1000_EERD_DONE = 0 :=
      fun y hy => hpre y (List.mem_cons_of_mem _ hy)
    have := ih v rest
      { k with reads := pre ++ v :: rest,
               trace := k.trace ++ [Event.reg_read k.dev.mmio_base (u16 c.E1000_EERD) (u32 x)] }
      rfl hpre2 hv
    rw [hk]
    simp [eeprom_poll, bind, M.bind, e1000_reg_read, hk, hx]
    simpa using this

theorem eeprom_poll_cases (c : Consts) (pending : List Nat) :
    ∀ k : Kernel, k.reads = pending →
      (∃ pre v rest, k.reads = pre ++ v :: rest ∧
          (∀ x ∈ pre, u32 x &&& c.E1000_EERD_DONE = 0) ∧ u32 v &&& c.E1000_EERD_DONE ≠ 0) ∨
      ((∀ x ∈ k.reads, u32 x &&& c.E1000_EERD_DONE = 0) ∧
          ∃ k1, eeprom_poll c k.reads k = Result.hang k1) := by
  induction pending with
  | nil =>
    intro k hk
    right
    rw [hk]
    exact ⟨by simp, k, rfl⟩
  | cons x pending ih =>
    intro k hk
    by_cases hx : u32 x &&& c.E1000_EERD_DONE = 0
    · rcases ih { k with reads := pending,
                         trace := k.trace ++ [Event.reg_read k.dev.mmio_base (u16 c.E1000_EERD) (u32 x)] }
          rfl with ⟨pre, v, rest, h1, h2, h3⟩ | ⟨h1, k1, h2⟩
      · left
        refine ⟨x :: pre, v, rest, ?_, ?_, h3⟩
        · rw [hk]; simp at h1; simp [h1]
        · intro y hy
          rcases List.mem_cons.mp hy with rfl | hy
          · exact hx
          · exact h2 y hy
      · right
        refine ⟨?_, k1, ?_⟩
        · intro y hy
          rw [hk] at hy
          rcases List.mem_cons.mp hy with rfl | hy
          · exact hx
          · exact h1 y hy
        · rw [hk]
          simp [eeprom_poll, bind, M.bind, e1000_reg_read, hk, hx]
          simpa using h2
    · left
      exact ⟨[], x, pending, by simp [hk], by simp, hx⟩

theorem eeprom_read_done (c : Consts) (addr : Nat) (pre : List Nat) (v : Nat) (rest : List Nat)
    (k : Kernel) (hk : k.reads = pre ++ v :: rest)
    (hpre : ∀ x ∈ pre, u32 x &&& c.E1000_EERD_DONE = 0) (hv : u32 v &&& c.E1000_EERD_DONE ≠ 0) :
    e1000_eeprom_read c addr k = Result.ok (u16 (u32 v >>> c.E1000_EERD_DATA))
      { k with reads := rest,
               trace := k.trace ++
                 Event.reg_write k.dev.mmio_base (u16 c.E1000_EERD)
                    (u32 (c.E1000_EERD_READ ||| (u8 addr <<< c.E1000_EERD_ADDR))) ::
                 (pre ++ [v]).map
                   (fun x => Event.reg_read k.dev.mmio_base (u16 c.E1000_EERD) (u32 x)) } := by
  have := eeprom_poll_done c pre v rest
    { k with trace := k.trace ++ [Event.reg_write k.dev.mmio_base (u16 c.E1000_EERD)
                (u32 (c.E1000_EERD_READ ||| (u8 addr <<< c.E1000_EERD_ADDR)))] } hk hpre hv
  simp [e1000_eeprom_read, bind, M.bind, e1000_reg_write, pure]
  simp at this
  rw [this]

theorem low_byte (w : Nat) : u8 (w &&& 0xff) = w &&& 0xff := by
  have h : w &&& 0xff = w % 2 ^ 8 := Nat.and_pow_two_sub_one_eq_mod w 8
  unfold u8
  rw [h]
  omega

theorem high_byte (w : Nat) (hw : w < 65536) : u8 ((w >>> 8) &&& 0xff) = w >>> 8 := by
  have h : (w >>> 8) &&& 0xff = (w >>> 8) % 2 ^ 8 := Nat.and_pow_two_sub_one_eq_mod _ 8
  have h2 : w >>> 8 = w / 2 ^ 8 := Nat.shiftRight_eq_div_pow w 8
  unfold u8
  rw [h, h2]
  have : w / 2 ^ 8 < 256 := by omega
  omega

theorem bytes_reassemble (w : Nat) : (w &&& 0xff) ||| ((w >>> 8) <<< 8) = w := by
  have h : w &&& 0xff = w % 2 ^ 8 := Nat.and_pow_two_sub_one_eq_mod w 8
  have h2 : w >>> 8 = w / 2 ^ 8 := Nat.shiftRight_eq_div_pow w 8
  have h3 : (w >>> 8) <<< 8 = 2 ^ 8 * (w >>> 8) := by rw [Nat.shiftLeft_eq, Nat.mul_comm]
  have h4 : w % 2 ^ 8 < 2 ^ 8 := Nat.mod_lt _ (by norm_num)
  rw [h, h3, Nat.or_comm, ← Nat.mul_add_lt_is_or h4, h2]
  omega

theorem u16_lt (x : Nat) : u16 x < 65536 := by
  unfold u16; omega

theorem bind_ok {α β : Type} (m : M α) (f : α → M β) (k k1 : Kernel) (a : α)
    (h : m k = Result.ok a k1) : (m >>= f) k = f a k1 := by
  show M.bind m f k = _
  simp [M.bind, h]

/-- One iteration of the loop of `e1000_read_addr_from_eeprom`. -/
theorem read_addr_body_done (c : Consts) (n : Nat) (pre : List Nat) (v : Nat) (rest : List Nat)
    (k : Kernel) (hk : k.reads = pre ++ v :: rest)
    (hpre : ∀ x ∈ pre, u32 x &&& c.E1000_EERD_DONE = 0) (hv : u32 v &&& c.E1000_EERD_DONE ≠ 0) :
    read_addr_step c n k =
    Result.ok ()
      { k with
        reads := rest,
        trace := k.trace ++
          Event.reg_write k.dev.mmio_base (u16 c.E1000_EERD)
            (u32 (c.E1000_EERD_READ ||| (u8 n <<< c.E1000_EERD_ADDR))) ::
          (pre ++ [v]).map
            (fun x => Event.reg_read k.dev.mmio_base (u16 c.E1000_EERD) (u32 x)),
        dev :=
          { k.dev with
            addr := fun j =>
              if j.val = n * 2 + 1 then u16 (u32 v >>> c.E1000_EERD_DATA) >>> 8
              else if j.val = n * 2 then u16 (u32 v >>> c.E1000_EERD_DATA) &&& 0xff
              else k.dev.addr j } } := by
  have h := eeprom_read_done c n pre v rest k hk hpre hv
  simp only [read_addr_step, bind, M.bind, h, store_addr]
  simp only [low_byte, high_byte _ (u16_lt _), Nat.add_zero]

/-- A run of `e1000_read_addr_from_eeprom` in which each of the three EEPROM
reads sees the done bit. -/
theorem read_addr_done (c : Consts) (k : Kernel) (p0 p1 p2 rest : List Nat) (v0 v1 v2 : Nat)
    (hk : k.reads = p0 ++ v0 :: (p1 ++ v1 :: (p2 ++ v2 :: rest)))
    (hp0 : ∀ x ∈ p0, u32 x &&& c.E1000_EERD_DONE = 0) (hv0 : u32 v0 &&& c.E1000_EERD_DONE ≠ 0)
    (hp1 : ∀ x ∈ p1, u32 x &&& c.E1000_EERD_DONE = 0) (hv1 : u32 v1 &&& c.E1000_EERD_DONE ≠ 0)
    (hp2 : ∀ x ∈ p2, u32 x &&& c.E1000_EERD_DONE = 0) (hv2 : u32 v2 &&& c.E1000_EERD_DONE ≠ 0) :
    e1000_read_addr_from_eeprom c k = Result.ok ()
      { k with
        reads := rest,
        trace := k.trace ++
          (Event.reg_write k.dev.mmio_base (u16 c.E1000_EERD)
              (u32 (c.E1000_EERD_READ ||| (0 <<< c.E1000_EERD_ADDR))) ::
            (p0 ++ [v0]).map (fun x => Event.reg_read k.dev.mmio_base (u16 c.E1000_EERD) (u32 x))) ++
          (Event.reg_write k.dev.mmio_base (u16 c.E1000_EERD)
              (u32 (c.E1000_EERD_READ ||| (1 <<< c.E1000_EERD_ADDR))) ::
            (p1 ++ [v1]).map (fun x => Event.reg_read k.dev.mmio_base (u16 c.E1000_EERD) (u32 x))) ++
          (Event.reg_write k.dev.mmio_base (u16 c.E1000_EERD)
              (u32 (c.E1000_EERD_READ ||| (2 <<< c.E1000_EERD_ADDR))) ::
            (p2 ++ [v2]).map (fun x => Event.reg_read k.dev.mmio_base (u16 c.E1000_EERD) (u32 x))),
        dev :=
          { k.dev with
            addr := fun j =>
              if j.val = 5 then u16 (u32 v2 >>> c.E1000_EERD_DATA) >>> 8
              else if j.val = 4 then u16 (u32 v2 >>> c.E1000_EERD_DATA) &&& 0xff
              else if j.val = 3 then u16 (u32 v1 >>> c.E1000_EERD_DATA) >>> 8
              else if j.val = 2 then u16 (u32 v1 >>> c.E1000_EERD_DATA) &&& 0xff
              else if j.val = 1 then u16 (u32 v0 >>> c.E1000_EERD_DATA) >>> 8
              else if j.val = 0 then u16 (u32 v0 >>> c.E1000_EERD_DATA) &&& 0xff
              else k.dev.addr j } } := by
  have h0 := read_addr_body_done c 0 p0 v0 _ k hk hp0 hv0
  unfold e1000_read_addr_from_eeprom
  simp only [for_loop]
  rw [bind_ok _ _ _ _ _ h0]
  rw [bind_ok _ _ _ _ _ (read_addr_body_done c 1 p1 v1 (p2 ++ v2 :: rest) _ ?_ hp1 hv1)]
  rw [bind_ok _ _ _ _ _ (read_addr_body_done c 2 p2 v2 rest _ ?_ hp2 hv2)]
  · simp [pure, u8]
  all_goals rfl

/-- C3: when the card answers the three EEPROM reads with the words W0, W1,
W2, `e1000_read_addr_from_eeprom` issues exactly three read commands, for the
addresses 0, 1, 2 in that order, each followed by its polls, and leaves the six
bytes W0 & 0xff, W0 >> 8, W1 & 0xff, W1 >> 8, W2 & 0xff, W2 >> 8 in the
destination; byte 2n joined with byte 2n+1 shifted by 8 gives back Wn. -/
theorem C3_read_addr (c : Consts) (k : Kernel) (p0 p1 p2 rest : List Nat) (v0 v1 v2 W0 W1 W2 : Nat)
    (hk : k.reads = p0 ++ v0 :: (p1 ++ v1 :: (p2 ++ v2 :: rest)))
    (hp0 : ∀ x ∈ p0, u32 x &&& c.E1000_EERD_DONE = 0) (hv0 : u32 v0 &&& c.E1000_EERD_DONE ≠ 0)
    (hp1 : ∀ x ∈ p1, u32 x &&& c.E1000_EERD_DONE = 0) (hv1 : u32 v1 &&& c.E1000_EERD_DONE ≠ 0)
    (hp2 : ∀ x ∈ p2, u32 x &&& c.E1000_EERD_DONE = 0) (hv2 : u32 v2 &&& c.E1000_EERD_DONE ≠ 0)
    (hW0 : u16 (u32 v0 >>> c.E1000_EERD_DATA) = W0)
    (hW1 : u16 (u32 v1 >>> c.E1000_EERD_DATA) = W1)
    (hW2 : u16 (u32 v2 >>> c.E1000_EERD_DATA) = W2) :
    ∃ k1, e1000_read_addr_from_eeprom c k = Result.ok () k1 ∧
      List.ofFn k1.dev.addr =
        [W0 &&& 0xff, W0 >>> 8, W1 &&& 0xff, W1 >>> 8, W2 &&& 0xff, W2 >>> 8] ∧
      (k1.dev.addr 0 ||| (k1.dev.addr 1 <<< 8) = W0 ∧
       k1.dev.addr 2 ||| (k1.dev.addr 3 <<< 8) = W1 ∧
       k1.dev.addr 4 ||| (k1.dev.addr 5 <<< 8) = W2) ∧
      k1.reads = rest ∧
      k1.trace = k.trace ++
        (Event.reg_write k.dev.mmio_base (u16 c.E1000_EERD)
            (u32 (c.E1000_EERD_READ ||| (0 <<< c.E1000_EERD_ADDR))) ::
          (p0 ++ [v0]).map (fun x => Event.reg_read k.dev.mmio_base (u16 c.E1000_EERD) (u32 x))) ++
        (Event.reg_write k.dev.mmio_base (u16 c.E1000_EERD)
            (u32 (c.E1000_EERD_READ ||| (1 <<< c.E1000_EERD_ADDR))) ::
          (p1 ++ [v1]).map (fun x => Event.reg_read k.dev.mmio_base (u16 c.E1000_EERD) (u32 x))) ++
        (Event.reg_write k.dev.mmio_base (u16 c.E1000_EERD)
            (u32 (c.E1000_EERD_READ ||| (2 <<< c.E1000_EERD_ADDR))) ::
          (p2 ++ [v2]).map (fun x => Event.reg_read k.dev.mmio_base (u16 c.E1000_EERD) (u32 x))) := by
  refine ⟨_, read_addr_done c k p0 p1 p2 rest v0 v1 v2 hk hp0 hv0 hp1 hv1 hp2 hv2, ?_, ?_, rfl, rfl⟩
  · subst hW0 hW1 hW2
    simp [List.ofFn, Fin.foldr, Fin.foldr.loop]
  · subst hW0 hW1 hW2
    have e2 : ((2 : Fin 6) : Nat) = 2 := rfl
    have e3 : ((3 : Fin 6) : Nat) = 3 := rfl
    have e4 : ((4 : Fin 6) : Nat) = 4 := rfl
    have e5 : ((5 : Fin 6) : Nat) = 5 := rfl
    simp [bytes_reassemble, e2, e3, e4, e5]

/-- C9: for an address in 0..255 and coming answers of the card that contain
one with the done bit, `e1000_eeprom_read` stores one command word (start bit
combined with the address shifted into the address field) to the
EEPROM-control register, loads that register up to and including the first
answer `v` with the done bit, and returns the 16-bit data field of `v`. -/
theorem C9_eeprom_read (c : Consts) (a : Nat) (k : Kernel) (ha : a < 256)
    (hdone : ∃ x ∈ k.reads, u32 x &&& c.E1000_EERD_DONE ≠ 0) :
    ∃ pre v rest, k.reads = pre ++ v :: rest ∧
      (∀ x ∈ pre, u32 x &&& c.E1000_EERD_DONE = 0) ∧ u32 v &&& c.E1000_EERD_DONE ≠ 0 ∧
      e1000_eeprom_read c a k = Result.ok (u16 (u32 v >>> c.E1000_EERD_DATA))
        { k with
          reads := rest,
          trace := k.trace ++
            Event.reg_write k.dev.mmio_base (u16 c.E1000_EERD)
              (u32 (c.E1000_EERD_READ ||| (a <<< c.E1000_EERD_ADDR))) ::
            (pre ++ [v]).map
              (fun x => Event.reg_read k.dev.mmio_base (u16 c.E1000_EERD) (u32 x)) } := by
  rcases eeprom_poll_cases c k.reads k rfl with ⟨pre, v, rest, h1, h2, h3⟩ | ⟨h1, _⟩
  · refine ⟨pre, v, rest, h1, h2, h3, ?_⟩
    have := eeprom_read_done c a pre v rest k h1 h2 h3
    have hu : u8 a = a := by unfold u8; omega
    rw [hu] at this
    exact this
  · obtain ⟨x, hx, hx2⟩ := hdone
    exact absurd (h1 x hx) hx2

/-! ## Ring set-up -/

theorem getD_tail (l : List Nat) (j : Nat) : l.tail.getD j 0 = l.getD (j + 1) 0 := by
  cases l <;> simp

theorem headD_eq_getD (l : List Nat) : l.headD 0 = l.getD 0 0 := by
  cases l <;> simp

theorem rx_init_step_run (c : Consts) (n : Nat) (k : Kernel) :
    rx_init_step c n k = Result.ok ()
      { k with
        kmem := k.kmem.tail,
        dev :=
          { k.dev with
            rx_ring := fun i =>
              if i.val = n then ⟨V2P c (k.kmem.getD 0 0), 0⟩ else k.dev.rx_ring i },
        trace := k.trace ++ [Event.rx_addr n (V2P c (k.kmem.getD 0 0)), Event.rx_status n 0] } := by
  simp only [rx_init_step, bind, M.bind, kalloc, store_rx_addr, store_rx_status, headD_eq_getD]
  refine congrArg (Result.ok ()) (Kernel.ext rfl rfl ?_ rfl rfl ?_)
  · refine e1000.ext rfl ?_ rfl rfl rfl
    funext i
    by_cases h : i.val = n <;> simp [h]
  · simp

/-- The first loop of `e1000_rx_init`, started at index `lo` for `count`
iterations. -/
theorem rx_loop_run (c : Consts) (count : Nat) :
    ∀ (lo : Nat) (k : Kernel), for_loop (rx_init_step c) lo count k = Result.ok ()
      { k with
        kmem := k.kmem.drop count,
        dev :=
          { k.dev with
            rx_ring := fun i =>
              if lo ≤ i.val ∧ i.val < lo + count then ⟨V2P c (k.kmem.getD (i.val - lo) 0), 0⟩
              else k.dev.rx_ring i },
        trace := k.trace ++ (List.range count).flatMap
          (fun j => [Event.rx_addr (lo + j) (V2P c (k.kmem.getD j 0)), Event.rx_status (lo + j) 0]) } := by
  induction count with
  | zero =>
    intro lo k
    refine congrArg (Result.ok ()) (Kernel.ext rfl rfl ?_ rfl rfl ?_)
    · refine e1000.ext rfl ?_ rfl rfl rfl
      funext i
      have h : ¬ (lo ≤ i.val ∧ i.val < lo + 0) := by omega
      simp only [h, if_false]
    · simp
  | succ count ih =>
    intro lo k
    simp only [for_loop]
    rw [bind_ok _ _ _ _ _ (rx_init_step_run c lo k), ih]
    refine congrArg (Result.ok ()) (Kernel.ext ?_ rfl ?_ rfl rfl ?_)
    · exact List.drop_tail _ _
    · refine e1000.ext rfl ?_ rfl rfl rfl
      funext i
      dsimp only
      by_cases h1 : i.val = lo
      · have h2 : ¬ (lo + 1 ≤ i.val ∧ i.val < lo + 1 + count) := by omega
        have h3 : lo ≤ i.val ∧ i.val < lo + (count + 1) := by omega
        rw [h1] at h2 h3
        simp only [h1]
        rw [if_neg h2, if_pos h3, Nat.sub_self]
        simp
      · by_cases h2 : lo + 1 ≤ i.val ∧ i.val < lo + 1 + count
        · have h3 : lo ≤ i.val ∧ i.val < lo + (count + 1) := by omega
          have h4 : i.val - lo = (i.val - (lo + 1)) + 1 := by omega
          simp only [h2, h3, and_self, if_true]
          rw [h4, getD_tail]
        · have h3 : ¬ (lo ≤ i.val ∧ i.val < lo + (count + 1)) := by omega
          simp only [h2, h3, if_false, h1]
    · dsimp only
      simp only [List.range_succ_eq_map, List.flatMap_cons, List.flatMap_map, getD_tail,
        List.append_assoc, Nat.add_zero]
      congr 2
      simp [Nat.add_assoc, Nat.add_comm 1, Function.comp_def]

theorem tx_init_step_run (n : Nat) (k : Kernel) :
    tx_init_step n k = Result.ok ()
      { k with
        dev :=
          { k.dev with
            tx_ring := fun i => if i.val = n then ⟨0, 0⟩ else k.dev.tx_ring i },
        trace := k.trace ++ [Event.tx_addr n 0, Event.tx_cmd n 0] } := by
  simp only [tx_init_step, bind, M.bind, store_tx_addr, store_tx_cmd]
  refine congrArg (Result.ok ()) (Kernel.ext rfl rfl ?_ rfl rfl ?_)
  · refine e1000.ext rfl rfl ?_ rfl rfl
    funext i
    by_cases h : i.val = n <;> simp [h]
  · simp

/-- The first loop of `e1000_tx_init`, started at index `lo` for `count`
iterations. -/
theorem tx_loop_run (count : Nat) :
    ∀ (lo : Nat) (k : Kernel), for_loop tx_init_step lo count k = Result.ok ()
      { k with
        dev :=
          { k.dev with
            tx_ring := fun i =>
              if lo ≤ i.val ∧ i.val < lo + count then ⟨0, 0⟩ else k.dev.tx_ring i },
        trace := k.trace ++ (List.range count).flatMap
          (fun j => [Event.tx_addr (lo + j) 0, Event.tx_cmd (lo + j) 0]) } := by
  induction count with
  | zero =>
    intro lo k
    refine congrArg (Result.ok ()) (Kernel.ext rfl rfl ?_ rfl rfl ?_)
    · refine e1000.ext rfl rfl ?_ rfl rfl
      funext i
      have h : ¬ (lo ≤ i.val ∧ i.val < lo + 0) := by omega
      simp only [h, if_false]
    · simp
  | succ count ih =>
    intro lo k
    simp only [for_loop]
    rw [bind_ok _ _ _ _ _ (tx_init_step_run lo k), ih]
    refine congrArg (Result.ok ()) (Kernel.ext rfl rfl ?_ rfl rfl ?_)
    · refine e1000.ext rfl rfl ?_ rfl rfl
      funext i
      dsimp only
      by_cases h1 : i.val = lo
      · have h2 : ¬ (lo + 1 ≤ i.val ∧ i.val < lo + 1 + count) := by omega
        have h3 : lo ≤ i.val ∧ i.val < lo + (count + 1) := by omega
        rw [if_neg h2, if_pos h3, if_pos h1]
      · by_cases h2 : lo + 1 ≤ i.val ∧ i.val < lo + 1 + count
        · have h3 : lo ≤ i.val ∧ i.val < lo + (count + 1) := by omega
          rw [if_pos h2, if_pos h3]
        · have h3 : ¬ (lo ≤ i.val ∧ i.val < lo + (count + 1)) := by omega
          rw [if_neg h2, if_neg h3, if_neg h1]
    · dsimp only
      simp only [List.range_succ_eq_map, List.flatMap_cons, List.flatMap_map,
        List.append_assoc, Nat.add_zero]
      congr 2
      simp [Nat.add_assoc, Nat.add_comm 1, Function.comp_def]

/-- The loop of `e1000_init` that clears the multicast table. -/
theorem mta_loop_run (c : Consts) (count : Nat) :
    ∀ (lo : Nat) (k : Kernel),
      for_loop (fun n => e1000_reg_write (c.E1000_MTA + (n <<< 2)) 0) lo count k = Result.ok ()
        { k with
          trace := k.trace ++ (List.range count).map
            (fun j => Event.reg_write k.dev.mmio_base (u16 (c.E1000_MTA + ((lo + j) <<< 2))) 0) } := by
  induction count with
  | zero =>
    intro lo k
    refine congrArg (Result.ok ()) (Kernel.ext rfl rfl rfl rfl rfl ?_)
    simp
  | succ count ih =>
    intro lo k
    simp only [for_loop]
    have h0 : e1000_reg_write (c.E1000_MTA + (lo <<< 2)) 0 k = Result.ok ()
        { k with trace := k.trace ++
            [Event.reg_write k.dev.mmio_base (u16 (c.E1000_MTA + (lo <<< 2))) 0] } := rfl
    rw [bind_ok _ _ _ _ _ h0, ih]
    refine congrArg (Result.ok ()) (Kernel.ext rfl rfl rfl rfl rfl ?_)
    dsimp only
    simp only [List.range_succ_eq_map, List.map_cons, List.map_map, List.append_assoc,
      Nat.add_zero]
    congr 2
    simp [Nat.add_assoc, Nat.add_comm 1, Function.comp_def]

theorem getD_drop (l : List Nat) (n m : Nat) : (l.drop n).getD m 0 = l.getD (n + m) 0 := by
  simp [List.getElem?_drop]

theorem reg_read_run (reg : Nat) (k : Kernel) :
    e1000_reg_read reg k = Result.ok (u32 (k.reads.getD 0 0))
      { k with
        reads := k.reads.drop 1,
        trace := k.trace ++ [Event.reg_read k.dev.mmio_base (u16 reg) (u32 (k.reads.getD 0 0))] } := by
  simp only [e1000_reg_read, headD_eq_getD, List.drop_one]

theorem reg_write_run (reg val : Nat) (k : Kernel) :
    e1000_reg_write reg val k = Result.ok ()
      { k with
        trace := k.trace ++ [Event.reg_write k.dev.mmio_base (u16 reg) (u32 val)] } := rfl

/-- Closed form of a run of `e1000_rx_init`. -/
theorem rx_init_run (c : Consts) (dev : Nat) (k : Kernel) :
    e1000_rx_init c dev k = Result.ok ()
      { k with
        kmem := k.kmem.drop RX_DESC_NUM,
        reads := k.reads.drop 2,
        dev :=
          { k.dev with
            rx_ring := fun i => ⟨V2P c (k.kmem.getD i.val 0), 0⟩ },
        trace := k.trace ++
          (List.range RX_DESC_NUM).flatMap
            (fun j => [Event.rx_addr j (V2P c (k.kmem.getD j 0)), Event.rx_status j 0]) ++
          [Event.reg_write k.dev.mmio_base (u16 c.E1000_RDBAL)
              (u32 (u32 (V2P c (dev + c.offsetof_rx_ring) &&& 0xffffffff))),
           Event.reg_write k.dev.mmio_base (u16 c.E1000_RDBAH)
              (u32 (u32 (V2P c (dev + c.offsetof_rx_ring) >>> 32))),
           Event.reg_read k.dev.mmio_base (u16 c.E1000_RDBAH) (u32 (k.reads.getD 0 0)),
           Event.reg_read k.dev.mmio_base (u16 c.E1000_RDBAL) (u32 (k.reads.getD 1 0)),
           Event.reg_write k.dev.mmio_base (u16 c.E1000_RDLEN) (u32 (u32 (RX_DESC_NUM * 16))),
           Event.reg_write k.dev.mmio_base (u16 c.E1000_RDH) (u32 0),
           Event.reg_write k.dev.mmio_base (u16 c.E1000_RDT) (u32 RX_DESC_NUM),
           Event.reg_write k.dev.mmio_base (u16 c.E1000_RCTL) (u32 (rctl_flags c))] } := by
  unfold e1000_rx_init
  rw [bind_ok _ _ _ _ _ (rx_loop_run c RX_DESC_NUM 0 k)]
  simp only [bind, M.bind, reg_read_run, reg_write_run, pure]
  refine congrArg (Result.ok ()) (Kernel.ext rfl rfl ?_ rfl ?_ ?_)
  · refine e1000.ext rfl ?_ rfl rfl rfl
    funext i
    have h : 0 ≤ i.val ∧ i.val < 0 + RX_DESC_NUM := ⟨Nat.zero_le _, by have := i.isLt; omega⟩
    simp only [h, and_self, if_true, Nat.sub_zero]
  · simp [List.drop_drop]
  · simp [getD_drop]

/-- Closed form of a run of `e1000_tx_init`. -/
theorem tx_init_run (c : Consts) (dev : Nat) (k : Kernel) :
    e1000_tx_init c dev k = Result.ok ()
      { k with
        reads := k.reads.drop 2,
        dev :=
          { k.dev with
            tx_ring := fun _ => ⟨0, 0⟩ },
        trace := k.trace ++
          (List.range TX_DESC_NUM).flatMap
            (fun j => [Event.tx_addr j 0, Event.tx_cmd j 0]) ++
          [Event.reg_write k.dev.mmio_base (u16 c.E1000_TDBAL)
              (u32 (u32 (V2P c (dev + c.offsetof_tx_ring) &&& 0xffffffff))),
           Event.reg_write k.dev.mmio_base (u16 c.E1000_TDBAH)
              (u32 (u32 (V2P c (dev + c.offsetof_tx_ring) >>> 32))),
           Event.reg_read k.dev.mmio_base (u16 c.E1000_TDBAH) (u32 (k.reads.getD 0 0)),
           Event.reg_read k.dev.mmio_base (u16 c.E1000_TDBAL) (u32 (k.reads.getD 1 0)),
           Event.reg_write k.dev.mmio_base (u16 c.E1000_TDLEN)
              (u32 (u32 (TX_DESC_NUM * c.sizeof_tx_desc))),
           Event.reg_write k.dev.mmio_base (u16 c.E1000_TDH) (u32 0),
           Event.reg_write k.dev.mmio_base (u16 c.E1000_TDT) (u32 TX_DESC_NUM),
           Event.reg_write k.dev.mmio_base (u16 c.E1000_TCTL) (u32 (tctl_flags c))] } := by
  unfold e1000_tx_init
  rw [bind_ok _ _ _ _ _ (tx_loop_run TX_DESC_NUM 0 k)]
  simp only [bind, M.bind, reg_read_run, reg_write_run, pure]
  refine congrArg (Result.ok ()) (Kernel.ext rfl rfl ?_ rfl ?_ ?_)
  · refine e1000.ext rfl rfl ?_ rfl rfl
    funext i
    have h : 0 ≤ i.val ∧ i.val < 0 + TX_DESC_NUM := ⟨Nat.zero_le _, by have := i.isLt; omega⟩
    simp only [h, and_self, if_true]
  · simp [List.drop_drop]
  · simp [getD_drop]

/-! ## Values held by registers -/

theorem last_write_snoc_same (reg b v : Nat) (t : List Event) :
    last_write reg (t ++ [Event.reg_write b reg v]) = some v := by
  simp [last_write, reg_writes_to, List.getLast?_concat]

theorem reg_writes_to_append (reg : Nat) (t s : List Event) :
    reg_writes_to reg (t ++ s) = reg_writes_to reg t ++ reg_writes_to reg s := by
  simp [reg_writes_to]

theorem reg_writes_to_rx_fill (reg : Nat) (f : Nat → Nat) (n : Nat) :
    reg_writes_to reg ((List.range n).flatMap
      (fun j => [Event.rx_addr j (f j), Event.rx_status j 0])) = [] := by
  simp [reg_writes_to, List.filterMap_eq_nil_iff, List.mem_flatMap]
  intro e j _ he
  rcases he with rfl | rfl <;> rfl

theorem reg_writes_to_tx_fill (reg : Nat) (n : Nat) :
    reg_writes_to reg ((List.range n).flatMap
      (fun j => [Event.tx_addr j 0, Event.tx_cmd j 0])) = [] := by
  simp [reg_writes_to, List.filterMap_eq_nil_iff, List.mem_flatMap]
  intro e j _ he
  rcases he with rfl | rfl <;> rfl

theorem V2P_of_page (c : Consts) (p : Nat) (h1 : u32 c.KERNBASE < p) (h2 : p < 4294967296) :
    V2P c p = p - u32 c.KERNBASE := by
  unfold V2P u32 at *
  omega

theorem V2P_lt (c : Consts) (a : Nat) : V2P c a < 4294967296 := by
  unfold V2P u32
  omega

theorem reg_writes_to_pairs (reg b : Nat) (ps : List (Nat × Nat)) :
    reg_writes_to reg (ps.map (fun p => Event.reg_write b p.1 p.2)) =
      (ps.filter (fun p => decide (p.1 = reg))).map Prod.snd := by
  induction ps with
  | nil => rfl
  | cons p ps ih =>
    unfold reg_writes_to at ih ⊢
    by_cases h : p.1 = reg
    · simp [List.filterMap_cons, h, ih]
    · simp [List.filterMap_cons, h, ih]

theorem filter_fst_of_nodup (ps : List (Nat × Nat)) (hnd : (ps.map Prod.fst).Nodup)
    (r v : Nat) (hmem : (r, v) ∈ ps) :
    (ps.filter (fun p => decide (p.1 = r))).map Prod.snd = [v] := by
  induction ps with
  | nil => simp at hmem
  | cons p ps ih =>
    rw [List.map_cons, List.nodup_cons] at hnd
    rcases List.mem_cons.mp hmem with h | h
    · subst h
      have hnone : ps.filter (fun p => decide (p.1 = r)) = [] := by
        rw [List.filter_eq_nil_iff]
        intro q hq hqr
        have : q.1 = r := by simpa using hqr
        exact hnd.1 (List.mem_map.mpr ⟨q, hq, this⟩)
      simp [hnone]
    · have hp : p.1 ≠ r := by
        intro hpr
        exact hnd.1 (List.mem_map.mpr ⟨(r, v), h, hpr.symm⟩)
      simp [hp, ih hnd.2 h]

theorem filter_fst_of_not_mem (ps : List (Nat × Nat)) (r : Nat)
    (h : r ∉ ps.map Prod.fst) :
    (ps.filter (fun p => decide (p.1 = r))).map Prod.snd = [] := by
  rw [List.map_eq_nil_iff, List.filter_eq_nil_iff]
  intro q hq hqr
  have : q.1 = r := by simpa using hqr
  exact h (List.mem_map.mpr ⟨q, hq, this⟩)

/-- After a trace `t`, descriptor stores `fill` and register accesses `suffix`
whose stores are those of the pair list `ps` to distinct offsets, each of
these registers holds the value of its pair. -/
theorem last_write_after (t fill suffix : List Event) (b : Nat) (ps : List (Nat × Nat))
    (hfill : ∀ reg, reg_writes_to reg fill = [])
    (hsuf : ∀ reg, reg_writes_to reg suffix =
      reg_writes_to reg (ps.map (fun p => Event.reg_write b p.1 p.2)))
    (hnd : (ps.map Prod.fst).Nodup) (r v : Nat) (hmem : (r, v) ∈ ps) :
    last_write r (t ++ fill ++ suffix) = some v := by
  unfold last_write
  rw [reg_writes_to_append, reg_writes_to_append, hfill, hsuf, reg_writes_to_pairs,
    filter_fst_of_nodup ps hnd r v hmem, List.append_nil, List.getLast?_concat]

/-- Registers not among the stored ones keep what they held. -/
theorem last_write_after_other (t fill suffix : List Event) (b : Nat) (ps : List (Nat × Nat))
    (hfill : ∀ reg, reg_writes_to reg fill = [])
    (hsuf : ∀ reg, reg_writes_to reg suffix =
      reg_writes_to reg (ps.map (fun p => Event.reg_write b p.1 p.2)))
    (r : Nat) (hr : r ∉ ps.map Prod.fst) :
    last_write r (t ++ fill ++ suffix) = last_write r t := by
  unfold last_write
  rw [reg_writes_to_append, reg_writes_to_append, hfill, hsuf, reg_writes_to_pairs,
    filter_fst_of_not_mem ps r hr, List.append_nil, List.append_nil]

theorem getD_append_left (l l2 : List Nat) (i : Nat) (h : i < l.length) :
    (l ++ l2).getD i 0 = l.getD i 0 := by
  simp [List.getElem?_append_left h]

theorem getD_mem (l : List Nat) (i : Nat) (h : i < l.length) : l.getD i 0 ∈ l := by
  simp [List.getElem?_eq_getElem h]

theorem getD_inj_of_nodup (l : List Nat) (hnd : l.Nodup) (i j : Nat) (hi : i < l.length)
    (hj : j < l.length) (h : l.getD i 0 = l.getD j 0) : i = j := by
  simp [List.getElem?_eq_getElem hi, List.getElem?_eq_getElem hj] at h
  exact (List.Nodup.getElem_inj_iff hnd).mp h

/-- C4: after `e1000_rx_init`, run with an allocator whose next sixteen pages
are distinct pages above the kernel base, each of the 16 receive descriptors
holds the physical address of its own page, non-zero and different from every
other slot, and status 0; RDBAL and RDBAH hold the low and high 32 bits of the
ring's physical base, RDLEN holds 16 times the descriptor size, RDH holds 0
and RDT holds 16. -/
theorem C4_rx_init (c : Consts) (dev : Nat) (k : Kernel) (pages rest : List Nat)
    (hsz : c.sizeof_rx_desc = 16)
    (hregs : (rx_regs c).Nodup)
    (hk : k.kmem = pages ++ rest) (hlen : pages.length = RX_DESC_NUM) (hnd : pages.Nodup)
    (hpage : ∀ p ∈ pages, u32 c.KERNBASE < p ∧ p < 4294967296) :
    ∃ k1, e1000_rx_init c dev k = Result.ok () k1 ∧
      RX_DESC_NUM = 16 ∧
      (∀ i : Fin RX_DESC_NUM,
        (k1.dev.rx_ring i).addr = V2P c (pages.getD i.val 0) ∧
        (k1.dev.rx_ring i).addr ≠ 0 ∧ (k1.dev.rx_ring i).status = 0) ∧
      (∀ i j : Fin RX_DESC_NUM, i ≠ j → (k1.dev.rx_ring i).addr ≠ (k1.dev.rx_ring j).addr) ∧
      k1.kmem = rest ∧
      last_write (u16 c.E1000_RDBAL) k1.trace = some (V2P c (dev + c.offsetof_rx_ring) % 2 ^ 32) ∧
      last_write (u16 c.E1000_RDBAH) k1.trace = some (V2P c (dev + c.offsetof_rx_ring) / 2 ^ 32) ∧
      last_write (u16 c.E1000_RDLEN) k1.trace = some (RX_DESC_NUM * c.sizeof_rx_desc) ∧
      last_write (u16 c.E1000_RDH) k1.trace = some 0 ∧
      last_write (u16 c.E1000_RDT) k1.trace = some RX_DESC_NUM := by
  have hlt : V2P c (dev + c.offsetof_rx_ring) < 4294967296 := V2P_lt _ _
  have hlo : u32 (u32 (V2P c (dev + c.offsetof_rx_ring) &&& 0xffffffff)) =
      V2P c (dev + c.offsetof_rx_ring) % 2 ^ 32 := by
    have h : V2P c (dev + c.offsetof_rx_ring) &&& 0xffffffff =
        V2P c (dev + c.offsetof_rx_ring) % 2 ^ 32 := Nat.and_pow_two_sub_one_eq_mod _ 32
    rw [h]; unfold u32; omega
  have hhi : u32 (u32 (V2P c (dev + c.offsetof_rx_ring) >>> 32)) =
      V2P c (dev + c.offsetof_rx_ring) / 2 ^ 32 := by
    rw [Nat.shiftRight_eq_div_pow]; unfold u32; omega
  have hval : ∀ i : Fin RX_DESC_NUM, k.kmem.getD i.val 0 = pages.getD i.val 0 := by
    intro i
    rw [hk]
    exact getD_append_left _ _ _ (by rw [hlen]; exact i.isLt)
  have hsuf : ∀ reg, reg_writes_to reg
      [Event.reg_write k.dev.mmio_base (u16 c.E1000_RDBAL)
          (u32 (u32 (V2P c (dev + c.offsetof_rx_ring) &&& 0xffffffff))),
       Event.reg_write k.dev.mmio_base (u16 c.E1000_RDBAH)
          (u32 (u32 (V2P c (dev + c.offsetof_rx_ring) >>> 32))),
       Event.reg_read k.dev.mmio_base (u16 c.E1000_RDBAH) (u32 (k.reads.getD 0 0)),
       Event.reg_read k.dev.mmio_base (u16 c.E1000_RDBAL) (u32 (k.reads.getD 1 0)),
       Event.reg_write k.dev.mmio_base (u16 c.E1000_RDLEN) (u32 (u32 (RX_DESC_NUM * 16))),
       Event.reg_write k.dev.mmio_base (u16 c.E1000_RDH) (u32 0),
       Event.reg_write k.dev.mmio_base (u16 c.E1000_RDT) (u32 RX_DESC_NUM),
       Event.reg_write k.dev.mmio_base (u16 c.E1000_RCTL) (u32 (rctl_flags c))] =
      reg_writes_to reg
        ([(u16 c.E1000_RDBAL, V2P c (dev + c.offsetof_rx_ring) % 2 ^ 32),
          (u16 c.E1000_RDBAH, V2P c (dev + c.offsetof_rx_ring) / 2 ^ 32),
          (u16 c.E1000_RDLEN, RX_DESC_NUM * c.sizeof_rx_desc),
          (u16 c.E1000_RDH, 0),
          (u16 c.E1000_RDT, RX_DESC_NUM),
          (u16 c.E1000_RCTL, u32 (rctl_flags c))].map
            (fun p => Event.reg_write k.dev.mmio_base p.1 p.2)) := by
    intro reg
    rw [hlo, hhi, hsz]
    rfl
  have hlast := last_write_after k.trace
    ((List.range RX_DESC_NUM).flatMap
      (fun j => [Event.rx_addr j (V2P c (k.kmem.getD j 0)), Event.rx_status j 0]))
    _ k.dev.mmio_base _ (fun reg => reg_writes_to_rx_fill reg _ _) hsuf hregs
  refine ⟨_, rx_init_run c dev k, rfl, ?_, ?_, ?_, ?_, ?_, ?_, ?_, ?_⟩
  · intro i
    have hmem : pages.getD i.val 0 ∈ pages := getD_mem _ _ (by rw [hlen]; exact i.isLt)
    have hp := hpage _ hmem
    refine ⟨?_, ?_, rfl⟩
    · show V2P c (k.kmem.getD i.val 0) = _
      rw [hval]
    · show V2P c (k.kmem.getD i.val 0) ≠ 0
      rw [hval, V2P_of_page c _ hp.1 hp.2]
      omega
  · intro i j hij h
    have h2 : V2P c (k.kmem.getD i.val 0) = V2P c (k.kmem.getD j.val 0) := h
    rw [hval, hval] at h2
    have hi := hpage _ (getD_mem pages i.val (by rw [hlen]; exact i.isLt))
    have hj := hpage _ (getD_mem pages j.val (by rw [hlen]; exact j.isLt))
    rw [V2P_of_page c _ hi.1 hi.2, V2P_of_page c _ hj.1 hj.2] at h2
    have h3 : pages.getD i.val 0 = pages.getD j.val 0 := by omega
    have := getD_inj_of_nodup pages hnd i.val j.val (by rw [hlen]; exact i.isLt)
      (by rw [hlen]; exact j.isLt) h3
    exact hij (Fin.ext this)
  · show k.kmem.drop RX_DESC_NUM = rest
    rw [hk, ← hlen]
    simp
  · exact hlast _ _ (by simp)
  · exact hlast _ _ (by simp)
  · exact hlast _ _ (by simp)
  · exact hlast _ _ (by simp)
  · exact hlast _ _ (by simp)

/-- Closed form of a run of `e1000_init` that returns: the allocator supplies
a page for the driver object, region resolution gives a non-zero base, and
each of the three EEPROM reads sees the done bit. -/
theorem init_done (c : Consts) (pcif : pci_func) (k : Kernel) (b page : Nat) (pages : List Nat)
    (p0 p1 p2 rest : List Nat) (v0 v1 v2 : Nat)
    (hb : e1000_resolve_mmio_base pcif = some b) (hb0 : u32 b ≠ 0)
    (hkm : k.kmem = page :: pages) (hpage : page ≠ 0)
    (hk : k.reads = p0 ++ v0 :: (p1 ++ v1 :: (p2 ++ v2 :: rest)))
    (hp0 : ∀ x ∈ p0, u32 x &&& c.E1000_EERD_DONE = 0) (hv0 : u32 v0 &&& c.E1000_EERD_DONE ≠ 0)
    (hp1 : ∀ x ∈ p1, u32 x &&& c.E1000_EERD_DONE = 0) (hv1 : u32 v1 &&& c.E1000_EERD_DONE ≠ 0)
    (hp2 : ∀ x ∈ p2, u32 x &&& c.E1000_EERD_DONE = 0) (hv2 : u32 v2 &&& c.E1000_EERD_DONE ≠ 0) :
    e1000_init c pcif k = Result.ok 0
      { kmem := pages.drop RX_DESC_NUM,
        gdev := page,
        ncpu := k.ncpu,
        reads := rest.drop 7,
        dev :=
          { mmio_base := u32 b,
            rx_ring := fun i => ⟨V2P c (pages.getD i.val 0), 0⟩,
            tx_ring := fun _ => ⟨0, 0⟩,
            addr := fun j =>
              if j.val = 5 then u16 (u32 v2 >>> c.E1000_EERD_DATA) >>> 8
              else if j.val = 4 then u16 (u32 v2 >>> c.E1000_EERD_DATA) &&& 0xff
              else if j.val = 3 then u16 (u32 v1 >>> c.E1000_EERD_DATA) >>> 8
              else if j.val = 2 then u16 (u32 v1 >>> c.E1000_EERD_DATA) &&& 0xff
              else if j.val = 1 then u16 (u32 v0 >>> c.E1000_EERD_DATA) >>> 8
              else if j.val = 0 then u16 (u32 v0 >>> c.E1000_EERD_DATA) &&& 0xff
              else k.dev.addr j,
            irq := u8 pcif.irq_line },
        trace := k.trace ++
          ((Event.reg_write (u32 b) (u16 c.E1000_EERD)
              (u32 (c.E1000_EERD_READ ||| (0 <<< c.E1000_EERD_ADDR))) ::
            (p0 ++ [v0]).map (fun x => Event.reg_read (u32 b) (u16 c.E1000_EERD) (u32 x))) ++
           (Event.reg_write (u32 b) (u16 c.E1000_EERD)
              (u32 (c.E1000_EERD_READ ||| (1 <<< c.E1000_EERD_ADDR))) ::
            (p1 ++ [v1]).map (fun x => Event.reg_read (u32 b) (u16 c.E1000_EERD) (u32 x))) ++
           (Event.reg_write (u32 b) (u16 c.E1000_EERD)
              (u32 (c.E1000_EERD_READ ||| (2 <<< c.E1000_EERD_ADDR))) ::
            (p2 ++ [v2]).map (fun x => Event.reg_read (u32 b) (u16 c.E1000_EERD) (u32 x)))) ++
          [Event.ioapicenable (u8 pcif.irq_line) (k.ncpu - 1)] ++
          ([Event.reg_read (u32 b) (u16 c.E1000_CTL) (u32 (rest.getD 0 0)),
            Event.reg_write (u32 b) (u16 c.E1000_CTL)
              (u32 (u32 (rest.getD 0 0) ||| c.E1000_CTL_SLU))] ++
           (List.range 128).map
              (fun n => Event.reg_write (u32 b) (u16 (c.E1000_MTA + (n <<< 2))) 0) ++
           [Event.reg_write (u32 b) (u16 c.E1000_IMS) (u32 c.E1000_IMS_RXT0),
            Event.reg_read (u32 b) (u16 c.E1000_ICR) (u32 (rest.getD 1 0))]) ++
          ((List.range RX_DESC_NUM).flatMap
              (fun j => [Event.rx_addr j (V2P c (pages.getD j 0)), Event.rx_status j 0]) ++
           [Event.reg_write (u32 b) (u16 c.E1000_RDBAL)
              (u32 (u32 (V2P c (page + c.offsetof_rx_ring) &&& 0xffffffff))),
            Event.reg_write (u32 b) (u16 c.E1000_RDBAH)
              (u32 (u32 (V2P c (page + c.offsetof_rx_ring) >>> 32))),
            Event.reg_read (u32 b) (u16 c.E1000_RDBAH) (u32 (rest.getD 2 0)),
            Event.reg_read (u32 b) (u16 c.E1000_RDBAL) (u32 (rest.getD 3 0)),
            Event.reg_write (u32 b) (u16 c.E1000_RDLEN) (u32 (u32 (RX_DESC_NUM * 16))),
            Event.reg_write (u32 b) (u16 c.E1000_RDH) (u32 0),
            Event.reg_write (u32 b) (u16 c.E1000_RDT) (u32 RX_DESC_NUM),
            Event.reg_write (u32 b) (u16 c.E1000_RCTL) (u32 (rctl_flags c))]) ++
          ((List.range TX_DESC_NUM).flatMap
              (fun j => [Event.tx_addr j 0, Event.tx_cmd j 0]) ++
           [Event.reg_write (u32 b) (u16 c.E1000_TDBAL)
              (u32 (u32 (V2P c (page + c.offsetof_tx_ring) &&& 0xffffffff))),
            Event.reg_write (u32 b) (u16 c.E1000_TDBAH)
              (u32 (u32 (V2P c (page + c.offsetof_tx_ring) >>> 32))),
            Event.reg_read (u32 b) (u16 c.E1000_TDBAH) (u32 (rest.getD 4 0)),
            Event.reg_read (u32 b) (u16 c.E1000_TDBAL) (u32 (rest.getD 5 0)),
            Event.reg_write (u32 b) (u16 c.E1000_TDLEN)
              (u32 (u32 (TX_DESC_NUM * c.sizeof_tx_desc))),
            Event.reg_write (u32 b) (u16 c.E1000_TDH) (u32 0),
            Event.reg_write (u32 b) (u16 c.E1000_TDT) (u32 TX_DESC_NUM),
            Event.reg_write (u32 b) (u16 c.E1000_TCTL) (u32 (tctl_flags c))]) ++
          [Event.reg_read (u32 b) (u16 c.E1000_RCTL) (u32 (rest.getD 6 0)),
           Event.reg_write (u32 b) (u16 c.E1000_RCTL)
              (u32 (u32 (rest.getD 6 0) ||| c.E1000_RCTL_EN))] } := by
  have hra := read_addr_done c
    { k with kmem := pages, gdev := page, dev := { k.dev with mmio_base := u32 b } }
    p0 p1 p2 rest v0 v1 v2 hk hp0 hv0 hp1 hv1 hp2 hv2
  unfold e1000_init
  simp only [bind, M.bind, kalloc, hkm, List.headD_cons, List.tail_cons, set_gdev, hb,
    store_mmio_base, if_neg hpage, assert, hb0, ne_eq, not_false_eq_true, decide_True, if_true,
    hra, store_irq, ioapicenable, reg_read_run, reg_write_run, mta_loop_run, rx_init_run,
    tx_init_run, pure]
  refine congrArg (Result.ok 0) (Kernel.ext rfl rfl ?_ rfl ?_ ?_)
  · rfl
  · simp [List.drop_drop]
  · simp [getD_drop, u32]

theorem bind_hang {α β : Type} (m : M α) (f : α → M β) (k k1 : Kernel)
    (h : m k = Result.hang k1) : (m >>= f) k = Result.hang k1 := by
  show M.bind m f k = _
  simp [M.bind, h]

theorem eeprom_read_cases (c : Consts) (addr : Nat) (k : Kernel) :
    (∃ pre v rest, k.reads = pre ++ v :: rest ∧
        (∀ x ∈ pre, u32 x &&& c.E1000_EERD_DONE = 0) ∧ u32 v &&& c.E1000_EERD_DONE ≠ 0) ∨
    (∃ k1, e1000_eeprom_read c addr k = Result.hang k1) := by
  rcases eeprom_poll_cases c k.reads
      { k with trace := k.trace ++ [Event.reg_write k.dev.mmio_base (u16 c.E1000_EERD)
          (u32 (c.E1000_EERD_READ ||| (u8 addr <<< c.E1000_EERD_ADDR)))] } rfl with h | ⟨_, k1, h⟩
  · left; exact h
  · right
    refine ⟨k1, ?_⟩
    unfold e1000_eeprom_read
    rw [bind_ok _ _ _ _ _ (reg_write_run _ _ k)]
    exact bind_hang _ _ _ _ h

theorem read_addr_step_cases (c : Consts) (n : Nat) (k : Kernel) :
    (∃ pre v rest, k.reads = pre ++ v :: rest ∧
        (∀ x ∈ pre, u32 x &&& c.E1000_EERD_DONE = 0) ∧ u32 v &&& c.E1000_EERD_DONE ≠ 0) ∨
    (∃ k1, read_addr_step c n k = Result.hang k1) := by
  rcases eeprom_read_cases c n k with h | ⟨k1, h⟩
  · left; exact h
  · right
    exact ⟨k1, bind_hang _ _ _ _ h⟩

/-- A run of `e1000_read_addr_from_eeprom` either sees the done bit three
times or never ends. -/
theorem read_addr_cases (c : Consts) (k : Kernel) :
    (∃ p0 v0 p1 v1 p2 v2 rest, k.reads = p0 ++ v0 :: (p1 ++ v1 :: (p2 ++ v2 :: rest)) ∧
        (∀ x ∈ p0, u32 x &&& c.E1000_EERD_DONE = 0) ∧ u32 v0 &&& c.E1000_EERD_DONE ≠ 0 ∧
        (∀ x ∈ p1, u32 x &&& c.E1000_EERD_DONE = 0) ∧ u32 v1 &&& c.E1000_EERD_DONE ≠ 0 ∧
        (∀ x ∈ p2, u32 x &&& c.E1000_EERD_DONE = 0) ∧ u32 v2 &&& c.E1000_EERD_DONE ≠ 0) ∨
    (∃ k1, e1000_read_addr_from_eeprom c k = Result.hang k1) := by
  unfold e1000_read_addr_from_eeprom
  simp only [for_loop]
  rcases read_addr_step_cases c 0 k with ⟨p0, v0, r0, hk0, hp0, hv0⟩ | ⟨k1, h⟩
  · have h0 := read_addr_body_done c 0 p0 v0 r0 k hk0 hp0 hv0
    rw [bind_ok _ _ _ _ _ h0]
    rcases read_addr_step_cases c (0 + 1) _ with ⟨p1, v1, r1, hk1, hp1, hv1⟩ | ⟨k1, h⟩
    · have h1 := read_addr_body_done c (0 + 1) p1 v1 r1 _ hk1 hp1 hv1
      rw [bind_ok _ _ _ _ _ h1]
      rcases read_addr_step_cases c (0 + 1 + 1) _ with ⟨p2, v2, r2, hk2, hp2, hv2⟩ | ⟨k1, h⟩
      · have h2 := read_addr_body_done c (0 + 1 + 1) p2 v2 r2 _ hk2 hp2 hv2
        rw [bind_ok _ _ _ _ _ h2]
        left
        refine ⟨p0, v0, p1, v1, p2, v2, r2, ?_, hp0, hv0, hp1, hv1, hp2, hv2⟩
        have e1 : r0 = p1 ++ v1 :: r1 := hk1
        have e2 : r1 = p2 ++ v2 :: r2 := hk2
        rw [hk0, e1, e2]
      · right
        exact ⟨k1, bind_hang _ _ _ _ h⟩
    · right
      exact ⟨k1, bind_hang _ _ _ _ h⟩
  · right
    exact ⟨k1, bind_hang _ _ _ _ h⟩

/-- What a returning run of `e1000_init` started from. -/
theorem init_inv (c : Consts) (pcif : pci_func) (k k1 : Kernel) (r : Int)
    (h : e1000_init c pcif k = Result.ok r k1) :
    ∃ b page pages p0 v0 p1 v1 p2 v2 rest,
      e1000_resolve_mmio_base pcif = some b ∧ u32 b ≠ 0 ∧
      k.kmem = page :: pages ∧ page ≠ 0 ∧
      k.reads = p0 ++ v0 :: (p1 ++ v1 :: (p2 ++ v2 :: rest)) ∧
      (∀ x ∈ p0, u32 x &&& c.E1000_EERD_DONE = 0) ∧ u32 v0 &&& c.E1000_EERD_DONE ≠ 0 ∧
      (∀ x ∈ p1, u32 x &&& c.E1000_EERD_DONE = 0) ∧ u32 v1 &&& c.E1000_EERD_DONE ≠ 0 ∧
      (∀ x ∈ p2, u32 x &&& c.E1000_EERD_DONE = 0) ∧ u32 v2 &&& c.E1000_EERD_DONE ≠ 0 := by
  cases hb : e1000_resolve_mmio_base pcif with
  | none =>
    simp [e1000_init, hb, bind, M.bind, kalloc, set_gdev] at h
  | some b =>
    cases hkm : k.kmem with
    | nil =>
      simp [e1000_init, hb, bind, M.bind, kalloc, set_gdev, store_mmio_base, hkm] at h
    | cons page pages =>
      by_cases hpage : page = 0
      · simp [e1000_init, hb, bind, M.bind, kalloc, set_gdev, store_mmio_base, hkm, hpage] at h
      · by_cases hb0 : u32 b = 0
        · simp [e1000_init, hb, bind, M.bind, kalloc, set_gdev, store_mmio_base, hkm, hpage,
            assert, hb0] at h
        · rcases read_addr_cases c
              { k with kmem := pages, gdev := page, dev := { k.dev with mmio_base := u32 b } }
            with ⟨p0, v0, p1, v1, p2, v2, rest, hk, hrest⟩ | ⟨k2, hh⟩
          · exact ⟨b, page, pages, p0, v0, p1, v1, p2, v2, rest, rfl, hb0, rfl, hpage, hk, hrest⟩
          · simp [e1000_init, hb, bind, M.bind, kalloc, set_gdev, store_mmio_base, hkm, hpage,
              assert, hb0, hh] at h

/-- C5: after `e1000_tx_init`, from any prior state, each of the 16 transmit
descriptors has address 0 and command 0; TDBAL and TDBAH hold the low and
high 32 bits of the ring's physical base, TDLEN holds 16 times the size of a
transmit descriptor, TDH holds 0, TDT holds 16, TCTL holds exactly the union
of the transmit-enable and pad-short-packets flags; no receive descriptor and
no receive-ring register is changed. -/
theorem C5_tx_init (c : Consts) (dev : Nat) (k : Kernel)
    (hregs : (tx_regs c).Nodup)
    (hdisj : ∀ r ∈ rx_regs c, r ∉ tx_regs c)
    (hlen : TX_DESC_NUM * c.sizeof_tx_desc < 4294967296)
    (hen : c.E1000_TCTL_EN < 4294967296) (hpsp : c.E1000_TCTL_PSP < 4294967296) :
    ∃ k1, e1000_tx_init c dev k = Result.ok () k1 ∧
      TX_DESC_NUM = 16 ∧
      (∀ i : Fin TX_DESC_NUM, (k1.dev.tx_ring i).addr = 0 ∧ (k1.dev.tx_ring i).cmd = 0) ∧
      last_write (u16 c.E1000_TDBAL) k1.trace = some (V2P c (dev + c.offsetof_tx_ring) % 2 ^ 32) ∧
      last_write (u16 c.E1000_TDBAH) k1.trace = some (V2P c (dev + c.offsetof_tx_ring) / 2 ^ 32) ∧
      last_write (u16 c.E1000_TDLEN) k1.trace = some (TX_DESC_NUM * c.sizeof_tx_desc) ∧
      last_write (u16 c.E1000_TDH) k1.trace = some 0 ∧
      last_write (u16 c.E1000_TDT) k1.trace = some TX_DESC_NUM ∧
      last_write (u16 c.E1000_TCTL) k1.trace = some (c.E1000_TCTL_EN ||| c.E1000_TCTL_PSP) ∧
      k1.dev.rx_ring = k.dev.rx_ring ∧
      (∀ r ∈ rx_regs c, last_write r k1.trace = last_write r k.trace) ∧
      (∃ evs, k1.trace = k.trace ++ evs ∧ ∀ e ∈ evs, touches_rx c e = false) := by
  have hlt : V2P c (dev + c.offsetof_tx_ring) < 4294967296 := V2P_lt _ _
  have hlo : u32 (u32 (V2P c (dev + c.offsetof_tx_ring) &&& 0xffffffff)) =
      V2P c (dev + c.offsetof_tx_ring) % 2 ^ 32 := by
    have h : V2P c (dev + c.offsetof_tx_ring) &&& 0xffffffff =
        V2P c (dev + c.offsetof_tx_ring) % 2 ^ 32 := Nat.and_pow_two_sub_one_eq_mod _ 32
    rw [h]; unfold u32; omega
  have hhi : u32 (u32 (V2P c (dev + c.offsetof_tx_ring) >>> 32)) =
      V2P c (dev + c.offsetof_tx_ring) / 2 ^ 32 := by
    rw [Nat.shiftRight_eq_div_pow]; unfold u32; omega
  have hl : u32 (u32 (TX_DESC_NUM * c.sizeof_tx_desc)) = TX_DESC_NUM * c.sizeof_tx_desc := by
    unfold u32; omega
  have hfl : u32 (tctl_flags c) = c.E1000_TCTL_EN ||| c.E1000_TCTL_PSP := by
    have : c.E1000_TCTL_EN ||| c.E1000_TCTL_PSP < 2 ^ 32 :=
      Nat.or_lt_two_pow (by omega) (by omega)
    unfold tctl_flags u32
    rw [Nat.or_zero]
    omega
  have hsuf : ∀ reg, reg_writes_to reg
      [Event.reg_write k.dev.mmio_base (u16 c.E1000_TDBAL)
          (u32 (u32 (V2P c (dev + c.offsetof_tx_ring) &&& 0xffffffff))),
       Event.reg_write k.dev.mmio_base (u16 c.E1000_TDBAH)
          (u32 (u32 (V2P c (dev + c.offsetof_tx_ring) >>> 32))),
       Event.reg_read k.dev.mmio_base (u16 c.E1000_TDBAH) (u32 (k.reads.getD 0 0)),
       Event.reg_read k.dev.mmio_base (u16 c.E1000_TDBAL) (u32 (k.reads.getD 1 0)),
       Event.reg_write k.dev.mmio_base (u16 c.E1000_TDLEN)
          (u32 (u32 (TX_DESC_NUM * c.sizeof_tx_desc))),
       Event.reg_write k.dev.mmio_base (u16 c.E1000_TDH) (u32 0),
       Event.reg_write k.dev.mmio_base (u16 c.E1000_TDT) (u32 TX_DESC_NUM),
       Event.reg_write k.dev.mmio_base (u16 c.E1000_TCTL) (u32 (tctl_flags c))] =
      reg_writes_to reg
        ([(u16 c.E1000_TDBAL, V2P c (dev + c.offsetof_tx_ring) % 2 ^ 32),
          (u16 c.E1000_TDBAH, V2P c (dev + c.offsetof_tx_ring) / 2 ^ 32),
          (u16 c.E1000_TDLEN, TX_DESC_NUM * c.sizeof_tx_desc),
          (u16 c.E1000_TDH, 0),
          (u16 c.E1000_TDT, TX_DESC_NUM),
          (u16 c.E1000_TCTL, c.E1000_TCTL_EN ||| c.E1000_TCTL_PSP)].map
            (fun p => Event.reg_write k.dev.mmio_base p.1 p.2)) := by
    intro reg
    rw [hlo, hhi, hl, hfl]
    rfl
  have hlast := last_write_after k.trace
    ((List.range TX_DESC_NUM).flatMap (fun j => [Event.tx_addr j 0, Event.tx_cmd j 0]))
    _ k.dev.mmio_base _ (fun reg => reg_writes_to_tx_fill reg _) hsuf hregs
  have hother := last_write_after_other k.trace
    ((List.range TX_DESC_NUM).flatMap (fun j => [Event.tx_addr j 0, Event.tx_cmd j 0]))
    _ k.dev.mmio_base _ (fun reg => reg_writes_to_tx_fill reg _) hsuf
  refine ⟨_, tx_init_run c dev k, rfl, fun i => ⟨rfl, rfl⟩, ?_, ?_, ?_, ?_, ?_, ?_, rfl, ?_, ?_⟩
  · exact hlast _ _ (by simp)
  · exact hlast _ _ (by simp)
  · exact hlast _ _ (by simp)
  · exact hlast _ _ (by simp)
  · exact hlast _ _ (by simp)
  · exact hlast _ _ (by simp)
  · intro r hr
    exact hother r (hdisj r hr)
  · refine ⟨_, List.append_assoc _ _ _, ?_⟩
    intro e he
    rcases List.mem_append.mp he with he | he
    · obtain ⟨j, _, hj⟩ := List.mem_flatMap.mp he
      simp only [List.mem_cons, List.mem_singleton, List.not_mem_nil, or_false] at hj
      rcases hj with rfl | rfl <;> rfl
    · have hd : ∀ r ∈ tx_regs c, r ∉ rx_regs c := fun r hr hr2 => hdisj r hr2 hr
      simp only [tx_regs, List.mem_cons, List.mem_singleton, List.not_mem_nil, or_false,
        forall_eq_or_imp, forall_eq] at hd
      simp only [List.mem_cons, List.mem_singleton, List.not_mem_nil, or_false] at he
      rcases he with rfl | rfl | rfl | rfl | rfl | rfl | rfl | rfl <;>
        simp [touches_rx, hd]

/-- C6: with the driver object set up (`gdev` non-null), `e1000_intr` performs
exactly one action, the store of the receive-timer bit to the interrupt-cause
register; no other register is stored to or loaded from, and the driver
object, its descriptors and station address, and all other state stay as they
were. -/
theorem C6_intr (c : Consts) (k : Kernel) (hdev : k.gdev ≠ 0) :
    e1000_intr c k = Result.ok ()
      { k with
        trace := k.trace ++
          [Event.reg_write k.dev.mmio_base (u16 c.E1000_ICR) (u32 c.E1000_ICR_RXT0)] } := by
  simp [e1000_intr, hdev, e1000_reg_write]

/-- C8: the value `e1000_rx_init` stores to the receive control register, as
its last action, is the union of the eight flags; the union is the same for
every order of the flags, joining the flags into it again changes nothing,
and storing it twice leaves the register holding the same value as storing it
once. -/
theorem C8_rctl_union (c : Consts) (dev : Nat) (k : Kernel) :
    (∃ k1 pre, e1000_rx_init c dev k = Result.ok () k1 ∧
      k1.trace = pre ++ [Event.reg_write k.dev.mmio_base (u16 c.E1000_RCTL)
        (u32 ([c.E1000_RCTL_SBP, c.E1000_RCTL_UPE, c.E1000_RCTL_MPE, c.E1000_RCTL_RDMTS_HALF,
               c.E1000_RCTL_SECRC, c.E1000_RCTL_LPE, c.E1000_RCTL_BAM,
               c.E1000_RCTL_SZ_2048].foldl (fun a f => a ||| f) 0))]) ∧
    (∀ l : List Nat,
      l.Perm [c.E1000_RCTL_SBP, c.E1000_RCTL_UPE, c.E1000_RCTL_MPE, c.E1000_RCTL_RDMTS_HALF,
              c.E1000_RCTL_SECRC, c.E1000_RCTL_LPE, c.E1000_RCTL_BAM, c.E1000_RCTL_SZ_2048] →
      l.foldl (fun a f => a ||| f) 0 = rctl_flags c) ∧
    rctl_flags c ||| rctl_flags c = rctl_flags c ∧
    [c.E1000_RCTL_SBP, c.E1000_RCTL_UPE, c.E1000_RCTL_MPE, c.E1000_RCTL_RDMTS_HALF,
      c.E1000_RCTL_SECRC, c.E1000_RCTL_LPE, c.E1000_RCTL_BAM,
      c.E1000_RCTL_SZ_2048].foldl (fun a f => a ||| f) (rctl_flags c) = rctl_flags c ∧
    (∃ k1 k2, e1000_reg_write c.E1000_RCTL (rctl_flags c) k = Result.ok () k1 ∧
      e1000_reg_write c.E1000_RCTL (rctl_flags c) k1 = Result.ok () k2 ∧
      last_write (u16 c.E1000_RCTL) k1.trace = some (u32 (rctl_flags c)) ∧
      last_write (u16 c.E1000_RCTL) k2.trace = last_write (u16 c.E1000_RCTL) k1.trace) := by
  have hfold : [c.E1000_RCTL_SBP, c.E1000_RCTL_UPE, c.E1000_RCTL_MPE, c.E1000_RCTL_RDMTS_HALF,
      c.E1000_RCTL_SECRC, c.E1000_RCTL_LPE, c.E1000_RCTL_BAM,
      c.E1000_RCTL_SZ_2048].foldl (fun a f => a ||| f) 0 = rctl_flags c := by
    simp [rctl_flags, List.foldl]
  refine ⟨?_, ?_, Nat.or_self _, ?_, ?_⟩
  · refine ⟨_, k.trace ++
        (List.range RX_DESC_NUM).flatMap
          (fun j => [Event.rx_addr j (V2P c (k.kmem.getD j 0)), Event.rx_status j 0]) ++
        [Event.reg_write k.dev.mmio_base (u16 c.E1000_RDBAL)
            (u32 (u32 (V2P c (dev + c.offsetof_rx_ring) &&& 0xffffffff))),
         Event.reg_write k.dev.mmio_base (u16 c.E1000_RDBAH)
            (u32 (u32 (V2P c (dev + c.offsetof_rx_ring) >>> 32))),
         Event.reg_read k.dev.mmio_base (u16 c.E1000_RDBAH) (u32 (k.reads.getD 0 0)),
         Event.reg_read k.dev.mmio_base (u16 c.E1000_RDBAL) (u32 (k.reads.getD 1 0)),
         Event.reg_write k.dev.mmio_base (u16 c.E1000_RDLEN) (u32 (u32 (RX_DESC_NUM * 16))),
         Event.reg_write k.dev.mmio_base (u16 c.E1000_RDH) (u32 0),
         Event.reg_write k.dev.mmio_base (u16 c.E1000_RDT) (u32 RX_DESC_NUM)],
      rx_init_run c dev k, ?_⟩
    rw [hfold]
    simp
  · intro l hl
    rw [← hfold]
    refine List.Perm.foldl_eq' hl ?_ 0
    intro x _ y _ z
    show z ||| x ||| y = z ||| y ||| x
    rw [Nat.or_assoc, Nat.or_comm x y, ← Nat.or_assoc]
  · have key : ∀ (l : List Nat) (a : Nat), (∀ f ∈ l, a ||| f = a) →
        l.foldl (fun a f => a ||| f) a = a := by
      intro l
      induction l with
      | nil => intro a _; rfl
      | cons f l ih =>
        intro a h
        rw [List.foldl_cons, h f (List.mem_cons_self _ _)]
        exact ih a (fun g hg => h g (List.mem_cons_of_mem _ hg))
    apply key
    intro f hf
    apply Nat.eq_of_testBit_eq
    intro i
    simp only [List.mem_cons, List.mem_singleton, List.not_mem_nil, or_false] at hf
    rcases hf with rfl | rfl | rfl | rfl | rfl | rfl | rfl | rfl <;>
      simp only [rctl_flags, Nat.testBit_or, Nat.or_zero] <;>
      cases Nat.testBit c.E1000_RCTL_SBP i <;> cases Nat.testBit c.E1000_RCTL_UPE i <;>
      cases Nat.testBit c.E1000_RCTL_MPE i <;> cases Nat.testBit c.E1000_RCTL_RDMTS_HALF i <;>
      cases Nat.testBit c.E1000_RCTL_SECRC i <;> cases Nat.testBit c.E1000_RCTL_LPE i <;>
      cases Nat.testBit c.E1000_RCTL_BAM i <;> cases Nat.testBit c.E1000_RCTL_SZ_2048 i <;> rfl
  · refine ⟨_, _, rfl, rfl, ?_, ?_⟩
    · exact last_write_snoc_same _ _ _ _
    · rw [last_write_snoc_same, last_write_snoc_same]

/-- After stores `s` of which exactly one goes to `reg`, the register holds
the value of that store. -/
theorem last_write_of_single (reg : Nat) (t s : List Event) (x : Nat)
    (h : reg_writes_to reg s = [x]) : last_write reg (t ++ s) = some x := by
  unfold last_write
  rw [reg_writes_to_append, h, List.getLast?_concat]

theorem u32_or_u32 (x y : Nat) : u32 (u32 x ||| y) = u32 (x ||| y) := by
  unfold u32
  apply Nat.eq_of_testBit_eq
  intro i
  have e : (4294967296 : Nat) = 2 ^ 32 := by norm_num
  rw [e]
  simp only [Nat.testBit_mod_two_pow, Nat.testBit_or]
  by_cases h : i < 32 <;> simp [h]

theorem testBit_u32_or (x y i : Nat) (h : x.testBit i = true) (hx : x < 4294967296) :
    (u32 (x ||| y)).testBit i = true := by
  have e : (4294967296 : Nat) = 2 ^ 32 := by norm_num
  unfold u32
  rw [e, Nat.testBit_mod_two_pow, Nat.testBit_or, h]
  have hi : i < 32 := by
    by_contra hge
    have : x < 2 ^ i := lt_of_lt_of_le (e ▸ hx) (Nat.pow_le_pow_right (by norm_num) (by omega))
    rw [Nat.testBit_lt_two_pow this] at h
    exact absurd h (by simp)
  simp [hi]

theorem u32_lt (x : Nat) : u32 x < 4294967296 := by
  unfold u32; omega

/-- C7, amended: in every returning run of `e1000_init` the last two actions
are the load of the receive control register and the store of the loaded
value with the enable bit added, every bit of the loaded value staying set;
all 16 receive descriptors, RDBAL, RDBAH, RDLEN, RDH, RDT and the flag union
have been stored before, and no earlier store to the receive control register
carries the enable bit.  The flag union is the last value stored to the
register before the load, so the enabling store carries the union with the
enable bit added in the runs in which the card returns on that load the value
last stored. -/
theorem C7_enable_last (c : Consts) (pcif : pci_func) (k k1 : Kernel) (r : Int)
    (hen : u32 (rctl_flags c) &&& c.E1000_RCTL_EN = 0)
    (hother : ∀ x ∈ [u16 c.E1000_EERD, u16 c.E1000_CTL, u16 c.E1000_IMS, u16 c.E1000_RDBAL,
        u16 c.E1000_RDBAH, u16 c.E1000_RDLEN, u16 c.E1000_RDH, u16 c.E1000_RDT] ++ tx_regs c,
      x ≠ u16 c.E1000_RCTL)
    (hmta : ∀ n < 128, u16 (c.E1000_MTA + (n <<< 2)) ≠ u16 c.E1000_RCTL)
    (h : e1000_init c pcif k = Result.ok r k1) :
    ∃ pre v,
      k1.trace = k.trace ++ pre ++
        [Event.reg_read k1.dev.mmio_base (u16 c.E1000_RCTL) v,
         Event.reg_write k1.dev.mmio_base (u16 c.E1000_RCTL) (u32 (v ||| c.E1000_RCTL_EN))] ∧
      (∀ i : Fin RX_DESC_NUM,
        Event.rx_addr i.val (k1.dev.rx_ring i).addr ∈ pre ∧ Event.rx_status i.val 0 ∈ pre) ∧
      Event.reg_write k1.dev.mmio_base (u16 c.E1000_RDBAL)
        (V2P c (k1.gdev + c.offsetof_rx_ring) % 2 ^ 32) ∈ pre ∧
      Event.reg_write k1.dev.mmio_base (u16 c.E1000_RDBAH)
        (V2P c (k1.gdev + c.offsetof_rx_ring) / 2 ^ 32) ∈ pre ∧
      Event.reg_write k1.dev.mmio_base (u16 c.E1000_RDLEN) 256 ∈ pre ∧
      Event.reg_write k1.dev.mmio_base (u16 c.E1000_RDH) 0 ∈ pre ∧
      Event.reg_write k1.dev.mmio_base (u16 c.E1000_RDT) 16 ∈ pre ∧
      Event.reg_write k1.dev.mmio_base (u16 c.E1000_RCTL) (u32 (rctl_flags c)) ∈ pre ∧
      (∀ b w, Event.reg_write b (u16 c.E1000_RCTL) w ∈ pre → w &&& c.E1000_RCTL_EN = 0) ∧
      reg_writes_to (u16 c.E1000_RCTL) pre = [u32 (rctl_flags c)] ∧
      last_write (u16 c.E1000_RCTL) (k.trace ++ pre) = some (u32 (rctl_flags c)) ∧
      (some v = last_write (u16 c.E1000_RCTL) (k.trace ++ pre) →
        u32 (v ||| c.E1000_RCTL_EN) = u32 (rctl_flags c ||| c.E1000_RCTL_EN)) ∧
      (∀ i, v.testBit i = true → (u32 (v ||| c.E1000_RCTL_EN)).testBit i = true) := by
  obtain ⟨b, page, pages, p0, v0, p1, v1, p2, v2, rest, hb, hb0, hkm, hpage, hk,
    hp0, hv0, hp1, hv1, hp2, hv2⟩ := init_inv c pcif k k1 r h
  have hd := init_done c pcif k b page pages p0 p1 p2 rest v0 v1 v2 hb hb0 hkm hpage hk
    hp0 hv0 hp1 hv1 hp2 hv2
  rw [hd] at h
  cases h
  simp only [tx_regs, List.cons_append, List.nil_append, List.mem_cons, List.mem_singleton,
    List.not_mem_nil, or_false, forall_eq_or_imp, forall_eq] at hother
  obtain ⟨o1, o2, o3, r16, r26, r36, r46, r56, o4, o5, o6, o7, o8, o9⟩ := hother
  have hw : ∀ reg, reg_writes_to reg
      ((Event.reg_write (u32 b) (u16 c.E1000_EERD)
              (u32 (c.E1000_EERD_READ ||| (0 <<< c.E1000_EERD_ADDR))) ::
            (p0 ++ [v0]).map (fun x => Event.reg_read (u32 b) (u16 c.E1000_EERD) (u32 x))) ++
           (Event.reg_write (u32 b) (u16 c.E1000_EERD)
              (u32 (c.E1000_EERD_READ ||| (1 <<< c.E1000_EERD_ADDR))) ::
            (p1 ++ [v1]).map (fun x => Event.reg_read (u32 b) (u16 c.E1000_EERD) (u32 x))) ++
           (Event.reg_write (u32 b) (u16 c.E1000_EERD)
              (u32 (c.E1000_EERD_READ ||| (2 <<< c.E1000_EERD_ADDR))) ::
            (p2 ++ [v2]).map (fun x => Event.reg_read (u32 b) (u16 c.E1000_EERD) (u32 x)))) =
      if u16 c.E1000_EERD = reg then
        [u32 (c.E1000_EERD_READ ||| (0 <<< c.E1000_EERD_ADDR)),
         u32 (c.E1000_EERD_READ ||| (1 <<< c.E1000_EERD_ADDR)),
         u32 (c.E1000_EERD_READ ||| (2 <<< c.E1000_EERD_ADDR))] else [] := by
    intro reg
    have hreads : ∀ (rr : Nat) (l : List Nat), List.filterMap (fun e =>
        match e with
        | Event.reg_write _ r v => if r = reg then some v else none
        | _ => none)
        (l.map (fun x => Event.reg_read (u32 b) rr (u32 x))) = [] := by
      intro rr l
      induction l with
      | nil => rfl
      | cons x l ih => simp [List.filterMap_cons, ih]
    unfold reg_writes_to
    by_cases hreg : u16 c.E1000_EERD = reg
    · simp only [List.filterMap_append, List.filterMap_cons, hreads, hreg, if_true]
      simp
    · simp only [List.filterMap_append, List.filterMap_cons, hreads, hreg, if_false]
      simp
  have hmtaw : reg_writes_to (u16 c.E1000_RCTL) ((List.range 128).map
      (fun n => Event.reg_write (u32 b) (u16 (c.E1000_MTA + (n <<< 2))) 0)) = [] := by
    unfold reg_writes_to
    rw [List.filterMap_eq_nil_iff]
    intro e he
    obtain ⟨n, hn, rfl⟩ := List.mem_map.mp he
    have := hmta n (List.mem_range.mp hn)
    simp [this]
  have hpre : reg_writes_to (u16 c.E1000_RCTL)
      (((Event.reg_write (u32 b) (u16 c.E1000_EERD)
              (u32 (c.E1000_EERD_READ ||| (0 <<< c.E1000_EERD_ADDR))) ::
            (p0 ++ [v0]).map (fun x => Event.reg_read (u32 b) (u16 c.E1000_EERD) (u32 x))) ++
           (Event.reg_write (u32 b) (u16 c.E1000_EERD)
              (u32 (c.E1000_EERD_READ ||| (1 <<< c.E1000_EERD_ADDR))) ::
            (p1 ++ [v1]).map (fun x => Event.reg_read (u32 b) (u16 c.E1000_EERD) (u32 x))) ++
           (Event.reg_write (u32 b) (u16 c.E1000_EERD)
              (u32 (c.E1000_EERD_READ ||| (2 <<< c.E1000_EERD_ADDR))) ::
            (p2 ++ [v2]).map (fun x => Event.reg_read (u32 b) (u16 c.E1000_EERD) (u32 x)))) ++
          [Event.ioapicenable (u8 pcif.irq_line) (k.ncpu - 1)] ++
          ([Event.reg_read (u32 b) (u16 c.E1000_CTL) (u32 (rest.getD 0 0)),
            Event.reg_write (u32 b) (u16 c.E1000_CTL)
              (u32 (u32 (rest.getD 0 0) ||| c.E1000_CTL_SLU))] ++
           (List.range 128).map
              (fun n => Event.reg_write (u32 b) (u16 (c.E1000_MTA + (n <<< 2))) 0) ++
           [Event.reg_write (u32 b) (u16 c.E1000_IMS) (u32 c.E1000_IMS_RXT0),
            Event.reg_read (u32 b) (u16 c.E1000_ICR) (u32 (rest.getD 1 0))]) ++
          ((List.range RX_DESC_NUM).flatMap
              (fun j => [Event.rx_addr j (V2P c (pages.getD j 0)), Event.rx_status j 0]) ++
           [Event.reg_write (u32 b) (u16 c.E1000_RDBAL)
              (u32 (u32 (V2P c (page + c.offsetof_rx_ring) &&& 0xffffffff))),
            Event.reg_write (u32 b) (u16 c.E1000_RDBAH)
              (u32 (u32 (V2P c (page + c.offsetof_rx_ring) >>> 32))),
            Event.reg_read (u32 b) (u16 c.E1000_RDBAH) (u32 (rest.getD 2 0)),
            Event.reg_read (u32 b) (u16 c.E1000_RDBAL) (u32 (rest.getD 3 0)),
            Event.reg_write (u32 b) (u16 c.E1000_RDLEN) (u32 (u32 (RX_DESC_NUM * 16))),
            Event.reg_write (u32 b) (u16 c.E1000_RDH) (u32 0),
            Event.reg_write (u32 b) (u16 c.E1000_RDT) (u32 RX_DESC_NUM),
            Event.reg_write (u32 b) (u16 c.E1000_RCTL) (u32 (rctl_flags c))]) ++
          ((List.range TX_DESC_NUM).flatMap
              (fun j => [Event.tx_addr j 0, Event.tx_cmd j 0]) ++
           [Event.reg_write (u32 b) (u16 c.E1000_TDBAL)
              (u32 (u32 (V2P c (page + c.offsetof_tx_ring) &&& 0xffffffff))),
            Event.reg_write (u32 b) (u16 c.E1000_TDBAH)
              (u32 (u32 (V2P c (page + c.offsetof_tx_ring) >>> 32))),
            Event.reg_read (u32 b) (u16 c.E1000_TDBAH) (u32 (rest.getD 4 0)),
            Event.reg_read (u32 b) (u16 c.E1000_TDBAL) (u32 (rest.getD 5 0)),
            Event.reg_write (u32 b) (u16 c.E1000_TDLEN)
              (u32 (u32 (TX_DESC_NUM * c.sizeof_tx_desc))),
            Event.reg_write (u32 b) (u16 c.E1000_TDH) (u32 0),
            Event.reg_write (u32 b) (u16 c.E1000_TDT) (u32 TX_DESC_NUM),
            Event.reg_write (u32 b) (u16 c.E1000_TCTL) (u32 (tctl_flags c))])) =
      [u32 (rctl_flags c)] := by
    simp only [reg_writes_to_append, hw, hmtaw, reg_writes_to_rx_fill, reg_writes_to_tx_fill,
      if_neg o1]
    simp [reg_writes_to, o2, o3, o4, o5, o6, o7, o8, o9, r16, r26, r36, r46, r56]
  have hlt : V2P c (page + c.offsetof_rx_ring) < 4294967296 := V2P_lt _ _
  have hlo : u32 (u32 (V2P c (page + c.offsetof_rx_ring) &&& 0xffffffff)) =
      V2P c (page + c.offsetof_rx_ring) % 2 ^ 32 := by
    have h : V2P c (page + c.offsetof_rx_ring) &&& 0xffffffff =
        V2P c (page + c.offsetof_rx_ring) % 2 ^ 32 := Nat.and_pow_two_sub_one_eq_mod _ 32
    rw [h]; unfold u32; omega
  have hhi : u32 (u32 (V2P c (page + c.offsetof_rx_ring) >>> 32)) =
      V2P c (page + c.offsetof_rx_ring) / 2 ^ 32 := by
    rw [Nat.shiftRight_eq_div_pow]; unfold u32; omega
  have hlast := last_write_of_single (u16 c.E1000_RCTL) k.trace _ _ hpre
  refine ⟨_, u32 (rest.getD 6 0), ?_, ?_, ?_, ?_, ?_, ?_, ?_, ?_, ?_, hpre, hlast, ?_, ?_⟩
  · simp only [List.append_assoc]
  · intro i
    refine ⟨?_, ?_⟩
    · simp only [List.mem_append, List.mem_flatMap, List.mem_range]
      exact Or.inl (Or.inr (Or.inl ⟨i.val, i.isLt, by simp⟩))
    · simp only [List.mem_append, List.mem_flatMap, List.mem_range]
      exact Or.inl (Or.inr (Or.inl ⟨i.val, i.isLt, by simp⟩))
  · rw [hlo]; simp
  · rw [hhi]; simp
  · simp [RX_DESC_NUM, u32]
  · simp [u32]
  · simp [RX_DESC_NUM, u32]
  · simp
  · intro b2 w hmem
    have : w ∈ [u32 (rctl_flags c)] := by
      rw [← hpre]
      unfold reg_writes_to
      exact List.mem_filterMap.mpr ⟨_, hmem, by simp⟩
    rw [List.mem_singleton.mp this]
    exact hen
  · intro hv
    rw [hlast] at hv
    rw [Option.some.inj hv, u32_or_u32]
  · intro i hi
    exact testBit_u32_or _ _ _ hi (u32_lt _)

theorem mta_offset (c : Consts) (hmta : c.E1000_MTA + 4 * 127 < 65536) (n : Nat) (hn : n < 128) :
    u16 (c.E1000_MTA + (n <<< 2)) = c.E1000_MTA + 4 * n := by
  rw [Nat.shiftLeft_eq]
  unfold u16
  omega

/-- C10: in every returning run of `e1000_init`, after the loads and stores
of the EEPROM-control register that read the station address and the call to
the interrupt controller, and before the first receive descriptor is stored,
the register accesses are, in this order: the load of the control register
and the store of the loaded value with the set-link-up bit added, 128 stores
of zero at the offsets MTA + 4n, the store of the receive-timer bit to the
interrupt mask register, and one load of the interrupt-cause register; nothing
up to there touches a ring. -/
theorem C10_init_prologue (c : Consts) (pcif : pci_func) (k k1 : Kernel) (r : Int)
    (hmta : c.E1000_MTA + 4 * 127 < 65536)
    (hsep : ∀ x ∈ rx_regs c ++ tx_regs c,
      x ≠ u16 c.E1000_EERD ∧ x ≠ u16 c.E1000_CTL ∧ x ≠ u16 c.E1000_IMS ∧
      ¬ (c.E1000_MTA ≤ x ∧ x < c.E1000_MTA + 512))
    (h : e1000_init c pcif k = Result.ok r k1) :
    ∃ (eeprom mid rings : List Event) (ctl icr : Nat),
      k1.trace = k.trace ++ eeprom ++ [Event.ioapicenable k1.dev.irq (k.ncpu - 1)] ++ mid ++ rings ∧
      mid =
        [Event.reg_read k1.dev.mmio_base (u16 c.E1000_CTL) ctl,
         Event.reg_write k1.dev.mmio_base (u16 c.E1000_CTL) (u32 (ctl ||| c.E1000_CTL_SLU))] ++
        (List.range 128).map
          (fun n => Event.reg_write k1.dev.mmio_base (c.E1000_MTA + 4 * n) 0) ++
        [Event.reg_write k1.dev.mmio_base (u16 c.E1000_IMS) (u32 c.E1000_IMS_RXT0),
         Event.reg_read k1.dev.mmio_base (u16 c.E1000_ICR) icr] ∧
      (∀ e ∈ eeprom, ∃ v, e = Event.reg_read k1.dev.mmio_base (u16 c.E1000_EERD) v ∨
        e = Event.reg_write k1.dev.mmio_base (u16 c.E1000_EERD) v) ∧
      (∃ a tl, rings = Event.rx_addr 0 a :: tl) ∧
      (∀ e ∈ eeprom ++ [Event.ioapicenable k1.dev.irq (k.ncpu - 1)] ++ mid,
        touches_ring c e = false) ∧
      ctl < 4294967296 ∧
      (∀ i < 32, (u32 (ctl ||| c.E1000_CTL_SLU)).testBit i =
        (ctl.testBit i || c.E1000_CTL_SLU.testBit i)) ∧
      (∀ n < 128, c.E1000_MTA + 4 * n < 65536) ∧
      ((List.range 128).map (fun n => c.E1000_MTA + 4 * n)).Nodup := by
  obtain ⟨b, page, pages, p0, v0, p1, v1, p2, v2, rest, hb, hb0, hkm, hpage, hk,
    hp0, hv0, hp1, hv1, hp2, hv2⟩ := init_inv c pcif k k1 r h
  have hd := init_done c pcif k b page pages p0 p1 p2 rest v0 v1 v2 hb hb0 hkm hpage hk
    hp0 hv0 hp1 hv1 hp2 hv2
  rw [hd] at h
  cases h
  have hmap : (List.range 128).map
      (fun n => Event.reg_write (u32 b) (u16 (c.E1000_MTA + (n <<< 2))) 0) =
      (List.range 128).map (fun n => Event.reg_write (u32 b) (c.E1000_MTA + 4 * n) 0) := by
    apply List.map_congr_left
    intro n hn
    rw [mta_offset c hmta n (List.mem_range.mp hn)]
  have hnot : ∀ x, (x = u16 c.E1000_EERD ∨ x = u16 c.E1000_CTL ∨ x = u16 c.E1000_IMS ∨
      (c.E1000_MTA ≤ x ∧ x < c.E1000_MTA + 512)) →
      decide (x ∈ rx_regs c ∨ x ∈ tx_regs c) = false := by
    intro x hx
    rw [decide_eq_false_iff_not]
    intro hmem
    have := hsep x (List.mem_append.mpr hmem)
    rcases hx with hx | hx | hx | hx
    · exact this.1 hx
    · exact this.2.1 hx
    · exact this.2.2.1 hx
    · exact this.2.2.2 hx
  have heeprom : ∀ e ∈
      ((Event.reg_write (u32 b) (u16 c.E1000_EERD)
              (u32 (c.E1000_EERD_READ ||| (0 <<< c.E1000_EERD_ADDR))) ::
            (p0 ++ [v0]).map (fun x => Event.reg_read (u32 b) (u16 c.E1000_EERD) (u32 x))) ++
           (Event.reg_write (u32 b) (u16 c.E1000_EERD)
              (u32 (c.E1000_EERD_READ ||| (1 <<< c.E1000_EERD_ADDR))) ::
            (p1 ++ [v1]).map (fun x => Event.reg_read (u32 b) (u16 c.E1000_EERD) (u32 x))) ++
           (Event.reg_write (u32 b) (u16 c.E1000_EERD)
              (u32 (c.E1000_EERD_READ ||| (2 <<< c.E1000_EERD_ADDR))) ::
            (p2 ++ [v2]).map (fun x => Event.reg_read (u32 b) (u16 c.E1000_EERD) (u32 x)))),
      ∃ v, e = Event.reg_read (u32 b) (u16 c.E1000_EERD) v ∨
        e = Event.reg_write (u32 b) (u16 c.E1000_EERD) v := by
    intro e he
    simp only [List.mem_append, List.mem_cons, List.mem_map] at he
    rcases he with (((rfl | ⟨x, _, rfl⟩) | (rfl | ⟨x, _, rfl⟩)) | (rfl | ⟨x, _, rfl⟩))
    · exact ⟨_, Or.inr rfl⟩
    · exact ⟨_, Or.inl rfl⟩
    · exact ⟨_, Or.inr rfl⟩
    · exact ⟨_, Or.inl rfl⟩
    · exact ⟨_, Or.inr rfl⟩
    · exact ⟨_, Or.inl rfl⟩
  refine ⟨((Event.reg_write (u32 b) (u16 c.E1000_EERD)
              (u32 (c.E1000_EERD_READ ||| (0 <<< c.E1000_EERD_ADDR))) ::
            (p0 ++ [v0]).map (fun x => Event.reg_read (u32 b) (u16 c.E1000_EERD) (u32 x))) ++
           (Event.reg_write (u32 b) (u16 c.E1000_EERD)
              (u32 (c.E1000_EERD_READ ||| (1 <<< c.E1000_EERD_ADDR))) ::
            (p1 ++ [v1]).map (fun x => Event.reg_read (u32 b) (u16 c.E1000_EERD) (u32 x))) ++
           (Event.reg_write (u32 b) (u16 c.E1000_EERD)
              (u32 (c.E1000_EERD_READ ||| (2 <<< c.E1000_EERD_ADDR))) ::
            (p2 ++ [v2]).map (fun x => Event.reg_read (u32 b) (u16 c.E1000_EERD) (u32 x)))),
    ([Event.reg_read (u32 b) (u16 c.E1000_CTL) (u32 (rest.getD 0 0)),
         Event.reg_write (u32 b) (u16 c.E1000_CTL)
           (u32 (u32 (rest.getD 0 0) ||| c.E1000_CTL_SLU))] ++
        (List.range 128).map
          (fun n => Event.reg_write (u32 b) (c.E1000_MTA + 4 * n) 0) ++
        [Event.reg_write (u32 b) (u16 c.E1000_IMS) (u32 c.E1000_IMS_RXT0),
         Event.reg_read (u32 b) (u16 c.E1000_ICR) (u32 (rest.getD 1 0))]),
    (((List.range RX_DESC_NUM).flatMap
              (fun j => [Event.rx_addr j (V2P c (pages.getD j 0)), Event.rx_status j 0]) ++
           [Event.reg_write (u32 b) (u16 c.E1000_RDBAL)
              (u32 (u32 (V2P c (page + c.offsetof_rx_ring) &&& 0xffffffff))),
            Event.reg_write (u32 b) (u16 c.E1000_RDBAH)
              (u32 (u32 (V2P c (page + c.offsetof_rx_ring) >>> 32))),
            Event.reg_read (u32 b) (u16 c.E1000_RDBAH) (u32 (rest.getD 2 0)),
            Event.reg_read (u32 b) (u16 c.E1000_RDBAL) (u32 (rest.getD 3 0)),
            Event.reg_write (u32 b) (u16 c.E1000_RDLEN) (u32 (u32 (RX_DESC_NUM * 16))),
            Event.reg_write (u32 b) (u16 c.E1000_RDH) (u32 0),
            Event.reg_write (u32 b) (u16 c.E1000_RDT) (u32 RX_DESC_NUM),
            Event.reg_write (u32 b) (u16 c.E1000_RCTL) (u32 (rctl_flags c))]) ++
          ((List.range TX_DESC_NUM).flatMap
              (fun j => [Event.tx_addr j 0, Event.tx_cmd j 0]) ++
           [Event.reg_write (u32 b) (u16 c.E1000_TDBAL)
              (u32 (u32 (V2P c (page + c.offsetof_tx_ring) &&& 0xffffffff))),
            Event.reg_write (u32 b) (u16 c.E1000_TDBAH)
              (u32 (u32 (V2P c (page + c.offsetof_tx_ring) >>> 32))),
            Event.reg_read (u32 b) (u16 c.E1000_TDBAH) (u32 (rest.getD 4 0)),
            Event.reg_read (u32 b) (u16 c.E1000_TDBAL) (u32 (rest.getD 5 0)),
            Event.reg_write (u32 b) (u16 c.E1000_TDLEN)
              (u32 (u32 (TX_DESC_NUM * c.sizeof_tx_desc))),
            Event.reg_write (u32 b) (u16 c.E1000_TDH) (u32 0),
            Event.reg_write (u32 b) (u16 c.E1000_TDT) (u32 TX_DESC_NUM),
            Event.reg_write (u32 b) (u16 c.E1000_TCTL) (u32 (tctl_flags c))]) ++
          [Event.reg_read (u32 b) (u16 c.E1000_RCTL) (u32 (rest.getD 6 0)),
           Event.reg_write (u32 b) (u16 c.E1000_RCTL)
              (u32 (u32 (rest.getD 6 0) ||| c.E1000_RCTL_EN))]),
    u32 (rest.getD 0 0), u32 (rest.getD 1 0), ?_, rfl, heeprom, ?_, ?_, u32_lt _,
    ?_, ?_, ?_⟩
  · rw [← hmap]
    simp only [List.append_assoc]
  · simp only [RX_DESC_NUM, List.range_succ_eq_map, List.flatMap_cons, List.cons_append,
      List.nil_append]
    exact ⟨_, _, rfl⟩
  · intro e he
    rcases List.mem_append.mp he with he | he
    · rcases List.mem_append.mp he with he | he
      · obtain ⟨v, hv | hv⟩ := heeprom e he
        · rw [hv]; rfl
        · rw [hv]; exact hnot _ (Or.inl rfl)
      · rw [List.mem_singleton.mp he]; rfl
    · simp only [List.mem_append, List.mem_cons, List.mem_map, List.mem_range,
        List.mem_singleton, List.not_mem_nil, or_false] at he
      rcases he with ((rfl | rfl) | ⟨n, hn, rfl⟩) | (rfl | rfl)
      · rfl
      · exact hnot _ (Or.inr (Or.inl rfl))
      · exact hnot _ (Or.inr (Or.inr (Or.inr ⟨by omega, by omega⟩)))
      · exact hnot _ (Or.inr (Or.inr (Or.inl rfl)))
      · rfl
  · intro i hi
    have e : (4294967296 : Nat) = 2 ^ 32 := by norm_num
    unfold u32
    rw [e, Nat.testBit_mod_two_pow, Nat.testBit_mod_two_pow, Nat.testBit_or,
      Nat.testBit_mod_two_pow]
    simp [hi]
  · intro n hn
    omega
  · rw [List.nodup_map_iff_inj_on (List.nodup_range 128)]
    intro x _ y _ hxy
    omega

/-! ## Concrete runs -/

/-- C2, witness: a PCI function whose regions are all smaller than 64 KB,
started from the boot state. -/
theorem C2_init_aborts_witness :
    (∀ i : Fin 6, ¬ (pcif_small.reg_size i = 131072 ∧ pcif_small.reg_base i > 0xffff)) ∧
    ∃ k1, e1000_init datasheet pcif_small k_boot = Result.panic k1 ∧
      k1.trace = k_boot.trace ∧ k1.reads = k_boot.reads ∧
      k1.dev.rx_ring = k_boot.dev.rx_ring ∧ k1.dev.tx_ring = k_boot.dev.tx_ring :=
  ⟨by decide,
   (C2_init_aborts datasheet pcif_small k_boot 0x80400000
      (pages16 ++ [0x80411000, 0x80412000]) rfl (by decide) (by decide)).2⟩

/-- C3, witness: the card answers the three EEPROM reads with the words
0x1234, 0x5678 and 0x9abc. -/
theorem C3_read_addr_witness :
    ∃ k1, e1000_read_addr_from_eeprom datasheet k_boot = Result.ok () k1 ∧
      List.ofFn k1.dev.addr = [0x34, 0x12, 0x78, 0x56, 0xbc, 0x9a] := by
  obtain ⟨k1, h1, h2, _⟩ := C3_read_addr datasheet k_boot [0] [0x56780000] []
    [0x55, 0x80, 1, 2, 3, 4, 0x0400803c] 0x12340010 0x56780010 0x9abc0010 0x1234 0x5678 0x9abc
    rfl (by decide) (by decide) (by decide) (by decide) (by decide) (by decide)
    (by decide) (by decide) (by decide)
  exact ⟨k1, h1, h2⟩

/-- C4, witness: sixteen distinct pages above the kernel base. -/
theorem C4_rx_init_witness :
    datasheet.sizeof_rx_desc = 16 ∧ pages16.Nodup ∧
    ∃ k1, e1000_rx_init datasheet 0x80400000 k_rx = Result.ok () k1 ∧
      (∀ i : Fin RX_DESC_NUM, (k1.dev.rx_ring i).addr = V2P datasheet (pages16.getD i.val 0) ∧
        (k1.dev.rx_ring i).addr ≠ 0 ∧ (k1.dev.rx_ring i).status = 0) ∧
      last_write (u16 datasheet.E1000_RDT) k1.trace = some RX_DESC_NUM := by
  obtain ⟨k1, h1, _, h2, _, _, _, _, _, _, h3⟩ := C4_rx_init datasheet 0x80400000 k_rx pages16
    [0x80411000, 0x80412000] rfl (by decide) rfl rfl (by decide) (by decide)
  exact ⟨rfl, by decide, k1, h1, h2, h3⟩

/-- C5, witness: the register offsets of the manual. -/
theorem C5_tx_init_witness :
    (tx_regs datasheet).Nodup ∧ (∀ r ∈ rx_regs datasheet, r ∉ tx_regs datasheet) ∧
    ∃ k1, e1000_tx_init datasheet 0x80400000 k_rx = Result.ok () k1 ∧
      (∀ i : Fin TX_DESC_NUM, (k1.dev.tx_ring i).addr = 0 ∧ (k1.dev.tx_ring i).cmd = 0) ∧
      k1.dev.rx_ring = k_rx.dev.rx_ring := by
  obtain ⟨k1, h1, _, h2, _, _, _, _, _, _, h3, _⟩ := C5_tx_init datasheet 0x80400000 k_rx
    (by decide) (by decide) (by decide) (by decide) (by decide)
  exact ⟨by decide, by decide, k1, h1, h2, h3⟩

/-- C6, witness: the interrupt handler run on a set-up driver object. -/
theorem C6_intr_witness :
    k_up.gdev ≠ 0 ∧
    e1000_intr datasheet k_up = Result.ok ()
      { k_up with
        trace := k_up.trace ++
          [Event.reg_write k_up.dev.mmio_base (u16 datasheet.E1000_ICR)
            (u32 datasheet.E1000_ICR_RXT0)] } :=
  ⟨by decide, C6_intr datasheet k_up (by decide)⟩

/-- C9, witness: the EEPROM read of word 1 with a card that reports completion
at its second answer. -/
theorem C9_eeprom_read_witness :
    (∃ x ∈ k_boot.reads, u32 x &&& datasheet.E1000_EERD_DONE ≠ 0) ∧
    ∃ pre v rest, k_boot.reads = pre ++ v :: rest ∧
      (∀ x ∈ pre, u32 x &&& datasheet.E1000_EERD_DONE = 0) ∧
      u32 v &&& datasheet.E1000_EERD_DONE ≠ 0 ∧
      e1000_eeprom_read datasheet 1 k_boot =
        Result.ok (u16 (u32 v >>> datasheet.E1000_EERD_DATA))
          { k_boot with
            reads := rest,
            trace := k_boot.trace ++
              Event.reg_write k_boot.dev.mmio_base (u16 datasheet.E1000_EERD)
                (u32 (datasheet.E1000_EERD_READ ||| (1 <<< datasheet.E1000_EERD_ADDR))) ::
              (pre ++ [v]).map
                (fun x => Event.reg_read k_boot.dev.mmio_base (u16 datasheet.E1000_EERD)
                  (u32 x)) } :=
  ⟨⟨0x12340010, by decide, by decide⟩,
   C9_eeprom_read datasheet 1 k_boot (by decide) ⟨0x12340010, by decide, by decide⟩⟩

/-- A returning run of `e1000_init` from the boot state. -/
theorem init_boot_returns : ∃ k1, e1000_init datasheet pcif_ok k_boot = Result.ok 0 k1 :=
  ⟨_, init_done datasheet pcif_ok k_boot 0xfebc0000 0x80400000
    (pages16 ++ [0x80411000, 0x80412000]) [0] [0x56780000] []
    [0x55, 0x80, 1, 2, 3, 4, 0x0400803c] 0x12340010 0x56780010 0x9abc0010
    (by decide) (by decide) rfl (by decide) rfl
    (by decide) (by decide) (by decide) (by decide) (by decide) (by decide)⟩

/-- C7, counterexample: with a card that answers the load of the receive
control register with zero, `e1000_init` returns, the flag union 0x0400803c
is the last value stored to the register before the load, and the enabling
store, the last action of the run, carries the value 2: the enable bit alone,
none of the flags of the union, not the union with the enable bit added. -/
theorem C7_counterexample :
    ∃ k1, e1000_init datasheet pcif_ok k_silent = Result.ok 0 k1 ∧
      k1.trace.getLast? = some (Event.reg_write 0xfebc0000 0x100 2) ∧
      k1.trace.dropLast.getLast? = some (Event.reg_read 0xfebc0000 0x100 0) ∧
      last_write (u16 datasheet.E1000_RCTL) k1.trace.dropLast.dropLast =
        some (u32 (rctl_flags datasheet)) ∧
      u32 (rctl_flags datasheet) = 0x0400803c ∧
      u32 (rctl_flags datasheet ||| datasheet.E1000_RCTL_EN) = 0x0400803e ∧
      (2 : Nat) ≠ u32 (rctl_flags datasheet ||| datasheet.E1000_RCTL_EN) ∧
      2 &&& u32 (rctl_flags datasheet) = 0 :=
  ⟨_, init_done datasheet pcif_ok k_silent 0xfebc0000 0x80400000
      (pages16 ++ [0x80411000, 0x80412000]) [] [] [] [] 0x12340010 0x56780010 0x9abc0010
      (by decide) (by decide) rfl (by decide) rfl
      (by decide) (by decide) (by decide) (by decide) (by decide) (by decide),
    by decide, by decide, by decide, by decide, by decide, by decide, by decide⟩

/-- C7, witness: in the run of `e1000_init` from the boot state the card
returns on the load of the receive control register the flag union stored
before, and the run ends with the enabling store of the union with the enable
bit added. -/
theorem C7_enable_last_witness :
    u32 (rctl_flags datasheet) &&& datasheet.E1000_RCTL_EN = 0 ∧
    ∃ k1, e1000_init datasheet pcif_ok k_boot = Result.ok 0 k1 ∧
      ∃ pre v, k1.trace = k_boot.trace ++ pre ++
        [Event.reg_read k1.dev.mmio_base (u16 datasheet.E1000_RCTL) v,
         Event.reg_write k1.dev.mmio_base (u16 datasheet.E1000_RCTL)
           (u32 (v ||| datasheet.E1000_RCTL_EN))] ∧
        some v = last_write (u16 datasheet.E1000_RCTL) (k_boot.trace ++ pre) ∧
        u32 (v ||| datasheet.E1000_RCTL_EN) =
          u32 (rctl_flags datasheet ||| datasheet.E1000_RCTL_EN) ∧
        u32 (v ||| datasheet.E1000_RCTL_EN) = 0x0400803e := by
  have hd := init_done datasheet pcif_ok k_boot 0xfebc0000 0x80400000
    (pages16 ++ [0x80411000, 0x80412000]) [0] [0x56780000] []
    [0x55, 0x80, 1, 2, 3, 4, 0x0400803c] 0x12340010 0x56780010 0x9abc0010
    (by decide) (by decide) rfl (by decide) rfl
    (by decide) (by decide) (by decide) (by decide) (by decide) (by decide)
  obtain ⟨pre, v, h1, _, _, _, _, _, _, _, _, _, hlast, himp, _⟩ :=
    C7_enable_last datasheet pcif_ok k_boot _ 0 (by decide) (by decide) (by decide) hd
  have hv : v = 0x0400803c := by
    have h2 := List.append_inj_right' h1 rfl
    simp only [List.cons.injEq, Event.reg_read.injEq] at h2
    rw [← h2.1.2.2]
    decide
  have hback : some v = last_write (u16 datasheet.E1000_RCTL) (k_boot.trace ++ pre) := by
    rw [hlast, hv]
    decide
  refine ⟨by decide, _, hd, pre, v, h1, hback, himp hback, ?_⟩
  rw [hv]
  decide

/-- C10, witness: the run of `e1000_init` from the boot state. -/
theorem C10_init_prologue_witness :
    datasheet.E1000_MTA + 4 * 127 < 65536 ∧
    ∃ k1, e1000_init datasheet pcif_ok k_boot = Result.ok 0 k1 ∧
      ∃ (eeprom mid rings : List Event),
        k1.trace = k_boot.trace ++ eeprom ++
          [Event.ioapicenable k1.dev.irq (k_boot.ncpu - 1)] ++ mid ++ rings ∧
        mid.length = 132 := by
  obtain ⟨k1, h⟩ := init_boot_returns
  obtain ⟨eeprom, mid, rings, ctl, icr, h1, h2, _⟩ := C10_init_prologue datasheet pcif_ok k_boot
    k1 0 (by decide) (by decide) h
  refine ⟨by decide, k1, h, eeprom, mid, rings, h1, ?_⟩
  rw [h2]
  simp

end E1000
